import Mathlib

/-!
# esrid/starter: session lifecycle and request middleware

A shallow embedding of the session repository, the session service and the
request middleware of the Go sources, followed by theorems about them.

Conventions of the embedding.

* The PostgreSQL database behind `*sql.DB` is a value of type `DB` that is
  passed in and returned.  Queries are answered by the tables alone: a
  connection failure is not part of the model, so the errors a query returns
  are `sql.ErrNoRows` and the error of `Scan` on a column it cannot store.
* `time.Now()` and the SQL function `NOW()` are explicit arguments (one per
  clock reading), as are the bytes delivered by `crypto/rand` and the row id
  chosen by the database on insert.
* `time.Time` is an integer number of nanoseconds, `time.Duration` likewise.
* An `http.ResponseWriter` is the list of calls made on it, in order.
* An `http.Handler` is a function of the writer, the request and the state it
  can reach; a closure variable of a middleware is extra state of the handler
  the middleware returns.
-/

namespace Starter

/-! ## Time -/

abbrev Time := Int

abbrev Duration := Int

def Second : Duration := 1000000000

def Minute : Duration := 60 * Second

def Hour : Duration := 60 * Minute

/-! ## Errors -/

inductive Error where
  | ErrSessionExpired
  | ErrInvalidSession
  | ErrEmailAlreadyExist
  | ErrNoRows
  | ErrNoCookie
  | other (msg : String)
  deriving DecidableEq, Repr

/-! ## Rows of the two tables -/

/-- Go type `repository.Session`; `ExpiresAt` is a nullable column, `IPAddress`
is a `net.IP` (a byte slice, possibly nil). -/
structure Session where
  ID : String := ""
  UserID : String := ""
  CookieHash : String := ""
  CreatedAt : Time := 0
  ExpiresAt : Option Time := none
  IPAddress : Option (List Nat) := none
  UserAgent : String := ""
  deriving DecidableEq, Repr

/-- Go type `sql.NullString`. -/
structure NullString where
  String : String := ""
  Valid : Bool := false
  deriving DecidableEq, Repr

/-- Go type `repository.User`. -/
structure User where
  ID : String := ""
  Email : String := ""
  PasswordHash : NullString := {}
  GoogleID : NullString := {}
  CreatedAt : Time := 0
  UpdatedAt : Time := 0
  deriving DecidableEq, Repr

/-- The database: the rows of `sessions` and of `users`. -/
structure DB where
  sessions : List Session := []
  users : List User := []
  deriving DecidableEq, Repr

/-- The constraint `UNIQUE (user_id)` on `sessions`, which the conflict target
of the upsert in `SessionRepository.Create` refers to. -/
def DB.uniqueUserID (db : DB) : Prop :=
  (db.sessions.map Session.UserID).Nodup

/-! ## repository/session_repo.go -/

/-- The row written by the `DO UPDATE SET` arm of the upsert. -/
def upsertRow (dbNow : Time) (s : Session) (r : Session) : Session :=
  { r with
    CookieHash := s.CookieHash
    CreatedAt := dbNow
    ExpiresAt := none
    IPAddress := s.IPAddress
    UserAgent := s.UserAgent }

/-- Source function `SessionRepository.Create`: `INSERT ... VALUES ($1, $2, NOW(), NULL, $3, $4)
ON CONFLICT (user_id) DO UPDATE SET ... RETURNING cookie_hash`.  Only
`s.UserID`, `s.CookieHash`, `s.IPAddress` and `s.UserAgent` are bound to the
statement; `expires_at` is written as `NULL` in both arms. -/
def SessionRepository.Create (db : DB) (dbNow : Time) (newID : String) (s : Session) :
    Except Error String × DB :=
  if db.sessions.any (fun r => r.UserID == s.UserID) then
    (.ok s.CookieHash,
      { db with sessions :=
          db.sessions.map (fun r => if r.UserID = s.UserID then upsertRow dbNow s r else r) })
  else
    (.ok s.CookieHash,
      { db with sessions :=
          db.sessions ++ [{ ID := newID, UserID := s.UserID, CookieHash := s.CookieHash,
                            CreatedAt := dbNow, ExpiresAt := none,
                            IPAddress := s.IPAddress, UserAgent := s.UserAgent }] })

/-- Source function `SessionRepository.GetByCookieHash`: `SELECT ... WHERE cookie_hash = $1`
scanned with `QueryRow`, which takes the first row and reports
`sql.ErrNoRows` when there is none.  `Scan` stores `ip_address` into a
`net.IP`, which it cannot do for NULL: for such a row it returns an error.
A NULL `expires_at` is stored into the `*time.Time` as nil. -/
def SessionRepository.GetByCookieHash (db : DB) (cookieHash : String) : Except Error Session :=
  match db.sessions.find? (fun r => r.CookieHash == cookieHash) with
  | some s =>
    match s.IPAddress with
    | some _ => .ok s
    | none =>
      .error (.other ("sql: Scan error on column index 5, name ip_address: " ++
        "unsupported Scan, storing driver.Value type <nil> into type *net.IP"))
  | none => .error .ErrNoRows

/-- Source function `SessionRepository.DeleteByCookieHash`: `DELETE FROM sessions WHERE cookie_hash = $1`. -/
def SessionRepository.DeleteByCookieHash (db : DB) (cookieHash : String) : Option Error × DB :=
  (none, { db with sessions := db.sessions.filter (fun r => r.CookieHash != cookieHash) })

/-- Source function `SessionRepository.UpdateExpiry`: `UPDATE sessions SET expires_at = $1 WHERE cookie_hash = $2`. -/
def SessionRepository.UpdateExpiry (db : DB) (cookieHash : String) (expiresAt : Time) :
    Option Error × DB :=
  (none, { db with sessions :=
      db.sessions.map (fun r =>
        if r.CookieHash = cookieHash then { r with ExpiresAt := some expiresAt } else r) })

/-- Source function `SessionRepository.DeleteByUserID`: `DELETE FROM sessions WHERE user_id = $1`. -/
def SessionRepository.DeleteByUserID (db : DB) (userID : String) : Option Error × DB :=
  (none, { db with sessions := db.sessions.filter (fun r => r.UserID != userID) })

/-! ## repository/user_repo.go -/

/-- Source function `UserRepo.GetUserByID`: `sql.ErrNoRows` is turned into `(nil, nil)`. -/
def UserRepo.GetUserByID (db : DB) (id : String) : Except Error (Option User) :=
  match db.users.find? (fun u => u.ID == id) with
  | some u => .ok (some u)
  | none => .ok none

/-! ## services/session_serv.go -/

/-- Go type `services.SessionService` without its repository pointer. -/
structure SessionService where
  sessionDuration : Duration
  maxSessions : Int
  deriving DecidableEq, Repr

def NewSessionService : SessionService :=
  { sessionDuration := 24 * Hour, maxSessions := 5 }

/-- The alphabet of `base64.URLEncoding`. -/
def encodeURL : List Char :=
  "ABCDEFGHIJKLMNOPQRSTUVWXYZabcdefghijklmnopqrstuvwxyz0123456789-_".toList

def encodeDigit (n : Nat) : Char := encodeURL.getD (n % 64) 'A'

/-- Source function `base64.URLEncoding.EncodeToString` on a list of bytes (padded with `=`). -/
def EncodeToString : List Nat → List Char
  | [] => []
  | [a] => [encodeDigit (a / 4), encodeDigit (a % 4 * 16), '=', '=']
  | [a, b] =>
      [encodeDigit (a / 4), encodeDigit (a % 4 * 16 + b / 16), encodeDigit (b % 16 * 4), '=']
  | a :: b :: c :: rest =>
      encodeDigit (a / 4) :: encodeDigit (a % 4 * 16 + b / 16) ::
        encodeDigit (b % 16 * 4 + c / 64) :: encodeDigit c :: EncodeToString rest

/-- Source function `SessionService.GenerateSessionToken`; `rnd` is what `rand.Read` puts into
the 32-byte buffer, or its error. -/
def SessionService.GenerateSessionToken (rnd : Except Error (List Nat)) : Except Error String :=
  match rnd with
  | .error err => .error err
  | .ok b => .ok (String.mk (EncodeToString b))

/-- Source function `SessionService.CreateSession`.  The expiry computed from `now` is stored in
the `Session` value handed to the repository. -/
def SessionService.CreateSession (ss : SessionService) (db : DB)
    (rnd : Except Error (List Nat)) (now dbNow : Time) (newID : String)
    (userID : String) (ipAddress : Option (List Nat)) (userAgent : String) :
    Except Error String × DB :=
  match SessionService.GenerateSessionToken rnd with
  | .error err => (.error err, db)
  | .ok cookieHash =>
    let session : Session :=
      { UserID := userID, CookieHash := cookieHash, IPAddress := ipAddress,
        UserAgent := userAgent, ExpiresAt := some 0 }
    let expiresAt := now + ss.sessionDuration
    let session := { session with ExpiresAt := some expiresAt }
    match SessionRepository.Create db dbNow newID session with
    | (.error err, db1) => (.error err, db1)
    | (.ok cookieHash, db1) => (.ok cookieHash, db1)

/-- Source function `SessionService.ValidateSession`; `now` is the reading of `time.Now()`. -/
def SessionService.ValidateSession (db : DB) (now : Time) (cookieHash : String) :
    Except Error Session × DB :=
  match SessionRepository.GetByCookieHash db cookieHash with
  | .error _ => (.error .ErrInvalidSession, db)
  | .ok session =>
    match session.ExpiresAt with
    | some e =>
      if now > e then
        (.error .ErrSessionExpired, (SessionRepository.DeleteByCookieHash db cookieHash).2)
      else (.ok session, db)
    | none => (.ok session, db)

/-- Source function `SessionService.RefreshSession`; `now` is the clock reading inside
`ValidateSession`, `now2` the later one used for the new expiry. -/
def SessionService.RefreshSession (ss : SessionService) (db : DB) (now now2 : Time)
    (cookieHash : String) : Option Error × DB :=
  match SessionService.ValidateSession db now cookieHash with
  | (.error err, db1) => (some err, db1)
  | (.ok _, db1) =>
    let newExpiryTime := now2 + ss.sessionDuration
    SessionRepository.UpdateExpiry db1 cookieHash newExpiryTime

/-- Source function `SessionService.RevokeSession`. -/
def SessionService.RevokeSession (db : DB) (cookieHash : String) : Option Error × DB :=
  SessionRepository.DeleteByCookieHash db cookieHash

/-- Source function `SessionService.RevokeAllUserSessions`. -/
def SessionService.RevokeAllUserSessions (db : DB) (userID : String) : Option Error × DB :=
  SessionRepository.DeleteByUserID db userID

/-! ## net/http as seen by the handlers -/

/-- Go type `http.SameSite`. -/
inductive SameSite where
  | unset
  | SameSiteDefaultMode
  | SameSiteLaxMode
  | SameSiteStrictMode
  | SameSiteNoneMode
  deriving DecidableEq, Repr

/-- Go type `http.Cookie`, with the fields the handlers set. -/
structure Cookie where
  Name : String := ""
  Value : String := ""
  Path : String := ""
  HttpOnly : Bool := false
  Secure : Bool := false
  MaxAge : Int := 0
  SameSite : SameSite := .unset
  deriving DecidableEq, Repr

/-- Go type `http.Request`, with what the handlers read: the method, the parsed
cookies of the `Cookie` header in order, the parsed form (`r.Form`: body
fields first, then query parameters), the headers under their canonical keys,
the peer address, and the value stored under `userkey` in the request context
(`none`: nothing stored, `some none`: a nil `*User`). -/
structure Request where
  Method : String := "GET"
  Cookies : List Cookie := []
  Form : List (String × String) := []
  Header : List (String × String) := []
  RemoteAddr : String := ""
  userkey : Option (Option User) := none
  deriving DecidableEq, Repr

/-- Method `(*http.Request).Cookie`: the first cookie of that name, or `http.ErrNoCookie`. -/
def Request.Cookie (r : Request) (name : String) : Except Error Cookie :=
  match r.Cookies.find? (fun c => c.Name == name) with
  | some c => .ok c
  | none => .error .ErrNoCookie

/-- Method `(*http.Request).FormValue`: the first value of the field, or the
empty string when the field is absent. -/
def Request.FormValue (r : Request) (key : String) : String :=
  match r.Form.find? (fun p => p.1 == key) with
  | some p => p.2
  | none => ""

/-- Method `http.Header.Get`: the first value under the key, or the empty string. -/
def Request.HeaderGet (r : Request) (key : String) : String :=
  match r.Header.find? (fun p => p.1 == key) with
  | some p => p.2
  | none => ""

/-- One call made on an `http.ResponseWriter`: `http.SetCookie`, `http.Redirect`,
`http.Error`, `w.Header().Set`, `w.WriteHeader`, `w.Write`. -/
inductive Effect where
  | SetCookie (c : Cookie)
  | Redirect (url : String) (code : Nat)
  | Error (error : String) (code : Nat)
  | HeaderSet (key value : String)
  | WriteHeader (code : Nat)
  | Write (body : String)
  deriving DecidableEq, Repr

abbrev ResponseWriter := List Effect

/-- An `http.Handler` over the state `σ` it can reach. -/
abbrev Handler (σ : Type) := ResponseWriter → Request → σ → ResponseWriter × σ

def MethodGet : String := "GET"

def StatusSeeOther : Nat := 303

def StatusBadRequest : Nat := 400

def StatusForbidden : Nat := 403

def StatusTooManyRequests : Nat := 429

/-! ## utils/utils.go -/

/-- The two functions of package `net` that `GetIPAddressBytes` calls. -/
structure NetLib where
  ParseIP : String → Option (List Nat)
  SplitHostPort : String → Except Error (String × String)

/-- Predicate `unicode.IsSpace`. -/
def isSpace (c : Char) : Bool :=
  c == '\t' || c == '\n' || c.toNat == 11 || c.toNat == 12 || c == '\r' || c == ' ' ||
  c.toNat == 0x85 || c.toNat == 0xA0 || c.toNat == 0x1680 ||
  (0x2000 ≤ c.toNat && c.toNat ≤ 0x200A) || c.toNat == 0x2028 || c.toNat == 0x2029 ||
  c.toNat == 0x202F || c.toNat == 0x205F || c.toNat == 0x3000

/-- Function `strings.TrimSpace`. -/
def TrimSpace (s : String) : String :=
  String.mk (((s.toList.dropWhile isSpace).reverse.dropWhile isSpace).reverse)

/-- The first element of `strings.Split(s, ",")`. -/
def firstEntry (s : String) : String :=
  String.mk (s.toList.takeWhile (fun c => c != ','))

/-- Source function `GetIPAddressBytes`; `none` is the nil slice. -/
def GetIPAddressBytes (net : NetLib) (r : Request) : Option (List Nat) :=
  let xForwardedFor := r.HeaderGet "X-Forwarded-For"
  let fallback : Option (List Nat) :=
    match net.SplitHostPort r.RemoteAddr with
    | .ok (ip, _) => net.ParseIP ip
    | .error _ => none
  if xForwardedFor != "" then
    match net.ParseIP (TrimSpace (firstEntry xForwardedFor)) with
    | some parsedIP => some parsedIP
    | none => fallback
  else fallback

/-! ## handlers/middleware.go -/

/-- The cookie written when validation fails. -/
def clearedSessionCookie : Cookie :=
  { Name := "session", Value := "", Path := "/", HttpOnly := true, Secure := true, MaxAge := -1 }

/-- Source function `Middleware.AuthMiddleware`; `now` is the clock reading of
`ValidateSession`. -/
def Middleware.AuthMiddleware (now : Time) (next : Handler DB) : Handler DB :=
  fun w r db =>
    match r.Cookie "session" with
    | .error _ => (w ++ [.Redirect "/login" StatusSeeOther], db)
    | .ok cookie =>
      match SessionService.ValidateSession db now cookie.Value with
      | (.error _, db1) =>
        (w ++ [.SetCookie clearedSessionCookie, .Redirect "/login" StatusSeeOther], db1)
      | (.ok session, db1) =>
        match UserRepo.GetUserByID db1 session.UserID with
        | .error _ =>
          (w ++ [.Redirect "/login" StatusSeeOther],
            (SessionService.RevokeSession db1 cookie.Value).2)
        | .ok user => next w { r with userkey := some user } db1

/-- Source function `Middleware.CSRFMiddleware`. -/
def Middleware.CSRFMiddleware {σ : Type} (next : Handler σ) : Handler σ :=
  fun w r s =>
    if r.Method = MethodGet then next w r s
    else
      match r.Cookie "csrf_token" with
      | .error _ => (w ++ [.Error "CSRF token missing" StatusForbidden], s)
      | .ok csrfCookie =>
        let csrfToken := r.FormValue "csrf_token"
        if csrfToken = "" ∨ csrfToken ≠ csrfCookie.Value then
          (w ++ [.Error "Invalid CSRF token" StatusForbidden], s)
        else next w r s

/-- Go type `client`, local to `RateLimitMiddleware`. -/
structure client where
  count : Int := 0
  lastReset : Time := 0
  deriving DecidableEq, Repr

/-- The closure variable `clients` of `RateLimitMiddleware`, a
`map[string]*client` keyed by the bytes of the address. -/
abbrev Clients := List Nat → Option client

/-- The bucket `c` of a request after the lookup-or-insert and the window
reset (the statements between `now := time.Now()` and the limit test). -/
def currentBucket (clients : Clients) (ipStr : List Nat) (now : Time) : client :=
  let c : client :=
    match clients ipStr with
    | some c => c
    | none => { lastReset := now }
  if now - c.lastReset > Minute then { count := 0, lastReset := now } else c

/-- Source function `Middleware.RateLimitMiddleware`: the handler it returns,
with the map `clients` as the first component of its state.  `now.Sub`
saturates at the ends of `int64`, which does not change its comparison with
`time.Minute`. -/
def Middleware.RateLimitMiddleware {σ : Type} (net : NetLib) (now : Time) (next : Handler σ) :
    Handler (Clients × σ) :=
  fun w r st =>
    match GetIPAddressBytes net r with
    | none => (w ++ [.Error "Could not determine client IP" StatusBadRequest], st)
    | some ip =>
      let ipStr := ip
      let c := currentBucket st.1 ipStr now
      if c.count ≥ 100 then
        (w ++ [.Error "Rate limit exceeded" StatusTooManyRequests],
          (Function.update st.1 ipStr (some c), st.2))
      else
        let c : client := { c with count := c.count + 1 }
        let res := next w r st.2
        (res.1, (Function.update st.1 ipStr (some c), res.2))

/-- The rate limiter serving a list of requests in turn, each with the clock
reading at its arrival and its own writer; the state after the last one. -/
def serve {σ : Type} (net : NetLib) (next : Handler σ) :
    List (Time × ResponseWriter × Request) → Clients × σ → Clients × σ
  | [], st => st
  | q :: rest, st => serve net next rest (Middleware.RateLimitMiddleware net q.1 next q.2.1 q.2.2 st).2

/-! ## handlers/middleware.go: Chain -/

/-- The loop of `Chain`.  The counter is `i + 1` for the loop index `i`, which
runs from `len(mw) - 1` down to 0; the body is `h = mw[i](h)`. -/
def Middleware.Chain.loop {H : Type} (mw : List (H → H)) : Nat → H → H
  | 0, h => h
  | i + 1, h =>
    Middleware.Chain.loop mw i
      (match mw[i]? with
       | some m => m h
       | none => h)

/-- Source function `Middleware.Chain`; `H` is `http.Handler`, a middleware `Mw`
is a function `H → H`. -/
def Middleware.Chain {H : Type} (h : H) (mw : List (H → H)) : H :=
  Middleware.Chain.loop mw mw.length h

/-! ## utils/utils.go, repository/user_repo.go, services/user_serv.go: registration -/

/-- The text that method `Error()` returns for the errors above. -/
def Error.message : Error → String
  | .ErrSessionExpired => "session has expired"
  | .ErrInvalidSession => "invalid session"
  | .ErrEmailAlreadyExist => "email already exists"
  | .ErrNoRows => "sql: no rows in result set"
  | .ErrNoCookie => "http: named cookie not present"
  | .other msg => msg

/-- The library functions the registration path calls: `strings.ToLower`,
whether `mail.ParseAddress` accepts a string, and
`bcrypt.GenerateFromPassword` at the default cost. -/
structure StdLib where
  ToLower : String → String
  ParseAddress : String → Bool
  GenerateFromPassword : String → Except Error String

/-- Source function `HashPassword`. -/
def HashPassword (lib : StdLib) (password : String) : Except Error String :=
  match lib.GenerateFromPassword password with
  | .error err => .error (.other ("erreur lors du hachage du mot de passe : " ++ err.message))
  | .ok hashedPassword => .ok hashedPassword

/-- Source function `CleanString`. -/
def CleanString (lib : StdLib) (input : String) : String :=
  lib.ToLower (TrimSpace input)

/-- Source function `IsValidEmail`. -/
def IsValidEmail (lib : StdLib) (email : String) : Bool :=
  lib.ParseAddress email

/-- Source function `IsValidPasswordLength`; `len([]byte(password))` is the
number of bytes of the UTF-8 encoding. -/
def IsValidPasswordLength (password : String) : Bool :=
  let length := password.utf8ByteSize
  decide (length ≥ 8) && decide (length ≤ 72)

/-- Source function `UserRepo.GetUserByEmail`: `sql.ErrNoRows` is turned into `(nil, nil)`. -/
def UserRepo.GetUserByEmail (db : DB) (email : String) : Except Error (Option User) :=
  match db.users.find? (fun u => u.Email == email) with
  | some u => .ok (some u)
  | none => .ok none

/-- Source function `UserRepo.CreateUser`: `INSERT INTO users (email, password_hash,
google_id, created_at, updated_at) VALUES ($1, $2, $3, NOW(), NOW())
RETURNING ...`; the id is chosen by the database.  A violated constraint of
the table is, like a lost connection, not part of the model. -/
def UserRepo.CreateUser (db : DB) (dbNow : Time) (newID : String) (u : User) :
    Except Error User × DB :=
  let user : User :=
    { ID := newID, Email := u.Email, PasswordHash := u.PasswordHash, GoogleID := u.GoogleID,
      CreatedAt := dbNow, UpdatedAt := dbNow }
  (.ok user, { db with users := db.users ++ [user] })

/-- Source function `UserService.Create`.  Both discarded errors are discarded
here as well: a failed lookup leaves `exist` nil, a failed hashing leaves
`hash` empty. -/
def UserService.Create (lib : StdLib) (db : DB) (dbNow : Time) (newID : String) (user : User) :
    Except Error User × DB :=
  let exist : Option User :=
    match UserRepo.GetUserByEmail db user.Email with
    | .ok e => e
    | .error _ => none
  let found : Bool :=
    match exist with
    | some e => e.ID != ""
    | none => false
  if found then (.error .ErrEmailAlreadyExist, db)
  else
    let hashedPassword : NullString :=
      if user.PasswordHash.Valid then
        let hash : String :=
          match HashPassword lib user.PasswordHash.String with
          | .ok h => h
          | .error _ => ""
        { String := hash, Valid := true }
      else {}
    let user := { user with PasswordHash := hashedPassword }
    UserRepo.CreateUser db dbNow newID user

/-! ## handlers/helper_handler.go, handlers/auth_handler.go -/

def StatusConflict : Nat := 409

def StatusUnprocessableEntity : Nat := 422

def StatusInternalServerError : Nat := 500

/-- Source function `unprocessable`. -/
def unprocessable (w : ResponseWriter) : ResponseWriter :=
  w ++ [.WriteHeader StatusUnprocessableEntity]

/-- Source function `internal` (the log line is left out). -/
def internal (w : ResponseWriter) (_err : Error) : ResponseWriter :=
  w ++ [.Error "internal" StatusInternalServerError]

/-- Source function `conflict`. -/
def conflict (w : ResponseWriter) (msg : String) : ResponseWriter :=
  w ++ [.Error msg StatusConflict]

/-- What the outside world supplies during one call of `PostRegister`: the
value of `NOW()` and the id for the insert into `users`, then the random
bytes, the clock reading, the value of `NOW()` and the row id for
`CreateSession`. -/
structure RegisterEnv where
  userNow : Time
  newUserID : String
  rnd : Except Error (List Nat)
  now : Time
  sessionNow : Time
  newSessionID : String

/-- Source function `UserHandler.PostRegister`; `ss` is the field `SS` of the
handler (`US` holds nothing but the repository). -/
def UserHandler.PostRegister (lib : StdLib) (net : NetLib) (ss : SessionService)
    (env : RegisterEnv) : Handler DB :=
  fun w r db =>
    let email := CleanString lib (r.FormValue "email")
    let pwd := r.FormValue "password"
    let repeat_ := r.FormValue "repeat"
    if repeat_ ≠ pwd ∨ IsValidEmail lib email = false ∨ pwd.utf8ByteSize < 8 ∨
        pwd.utf8ByteSize > 72 then
      (unprocessable w, db)
    else
      let passwordHash : NullString :=
        if pwd ≠ "" then { String := pwd, Valid := true } else {}
      let u : User := { Email := email, PasswordHash := passwordHash }
      match UserService.Create lib db env.userNow env.newUserID u with
      | (.error err, db1) =>
        if err = .ErrEmailAlreadyExist then (conflict w err.message, db1)
        else (internal w err, db1)
      | (.ok created, db1) =>
        match SessionService.CreateSession ss db1 env.rnd env.now env.sessionNow
            env.newSessionID created.ID (GetIPAddressBytes net r) (r.HeaderGet "User-Agent") with
        | (.error err, db2) => (internal w err, db2)
        | (.ok cookieHash, db2) =>
          (w ++ [.SetCookie { Name := "session", Value := cookieHash, Path := "/",
                              HttpOnly := true, Secure := true,
                              SameSite := .SameSiteStrictMode, MaxAge := 86400 },
                 .Redirect "/app" StatusSeeOther], db2)

/-! ## Example data for the concrete statements -/

/-- Thirty-two zero bytes from `crypto/rand`. -/
def zeroBytes : Except Error (List Nat) := .ok (List.replicate 32 0)

/-- Thirty-two bytes `0xFF` from `crypto/rand`. -/
def onesBytes : Except Error (List Nat) := .ok (List.replicate 32 255)

def zeroToken : String := "AAAAAAAAAAAAAAAAAAAAAAAAAAAAAAAAAAAAAAAAAAA="

def onesToken : String := "__________________________________________8="

/-- The table after `CreateSession` for user `u1` on the empty database. -/
def dbAfterFirstLogin : DB :=
  { sessions := [{ ID := "s1", UserID := "u1", CookieHash := zeroToken, CreatedAt := 1001,
                   ExpiresAt := none, IPAddress := some [10, 0, 0, 1], UserAgent := "curl" }] }

/-- The table after a second `CreateSession` for user `u1`. -/
def dbAfterSecondLogin : DB :=
  { sessions := [{ ID := "s1", UserID := "u1", CookieHash := onesToken, CreatedAt := 5001,
                   ExpiresAt := none, IPAddress := some [10, 0, 0, 2], UserAgent := "firefox" }] }

/-- A session of user `u1`, created from 10.0.0.1, that expired at time 5. -/
def staleSession : Session :=
  { ID := "s1", UserID := "u1", CookieHash := "tok", CreatedAt := 0, ExpiresAt := some 5,
    IPAddress := some [10, 0, 0, 1] }

/-- A handler that records that it ran and which user it found in the context. -/
def markNext {σ : Type} : Handler σ :=
  fun w r s =>
    (w ++ [.Write (match r.userkey with
                   | some (some u) => "handler, user " ++ u.Email
                   | some none => "handler, nil user"
                   | none => "handler")], s)

/-- A request carrying the session cookie of `dbAfterFirstLogin`. -/
def sessionRequest : Request :=
  { Method := "GET", Cookies := [{ Name := "session", Value := zeroToken }] }

/-- A POST whose `csrf_token` cookie and `csrf_token` field are both empty. -/
def emptyTokenPost : Request :=
  { Method := "POST", Cookies := [{ Name := "csrf_token", Value := "" }],
    Form := [("csrf_token", "")] }

/-- A HEAD request without a `csrf_token` cookie. -/
def headRequest : Request := { Method := "HEAD" }

/-- Every bucket of the map holds a count between 0 and 100. -/
def countsBounded (clients : Clients) : Prop :=
  ∀ ip c, clients ip = some c → 0 ≤ c.count ∧ c.count ≤ 100

/-- A stand-in for package `net` that knows one address. -/
def exampleNet : NetLib where
  ParseIP := fun s =>
    if s = "10.0.0.1" then some [0, 0, 0, 0, 0, 0, 0, 0, 0, 0, 255, 255, 10, 0, 0, 1] else none
  SplitHostPort := fun s =>
    if s = "10.0.0.1:5000" then .ok ("10.0.0.1", "5000")
    else .error (.other "missing port in address")

/-- The 16-byte form of 10.0.0.1. -/
def exampleIP : List Nat := [0, 0, 0, 0, 0, 0, 0, 0, 0, 0, 255, 255, 10, 0, 0, 1]

/-- A request from peer 10.0.0.1. -/
def peerRequest : Request := { Method := "GET", RemoteAddr := "10.0.0.1:5000" }

/-- The store after `CreateSession` for `u1` and a `RefreshSession` that read
the clock at 2000. -/
def dbRefreshedAt2000 : DB :=
  { sessions := [{ ID := "s1", UserID := "u1", CookieHash := zeroToken, CreatedAt := 1001,
                   ExpiresAt := some (2000 + 24 * Hour), IPAddress := some [10, 0, 0, 1],
                   UserAgent := "curl" }] }

/-- A middleware that writes its name on the way to the next handler and
again on the way back. -/
def traced {σ : Type} (name : String) (next : Handler σ) : Handler σ :=
  fun w r s =>
    let res := next (w ++ [.Write (name ++ " request")]) r s
    (res.1 ++ [.Write (name ++ " response")], res.2)

/-- A stand-in for the library of the registration path: ASCII lower-casing,
an address check that looks for `@`, and a hashing that refuses more than 72
bytes. -/
def exampleLib : StdLib where
  ToLower := fun s => String.mk (s.toList.map Char.toLower)
  ParseAddress := fun s => s.toList.any (fun c => c == '@')
  GenerateFromPassword := fun p =>
    if p.utf8ByteSize > 72 then .error (.other "bcrypt: password length exceeds 72 bytes")
    else .ok ("$2a$10$" ++ p)

/-- The library of `exampleLib` with a hashing that always fails. -/
def failingLib : StdLib where
  ToLower := exampleLib.ToLower
  ParseAddress := exampleLib.ParseAddress
  GenerateFromPassword := fun _ => .error (.other "unexpected EOF")

/-- The stored user of the registration examples. -/
def storedUser : User :=
  { ID := "7", Email := "user@example.com",
    PasswordHash := { String := "$2a$10$password10", Valid := true },
    CreatedAt := 50, UpdatedAt := 50 }

/-- The outside world of the registration examples. -/
def exampleEnv : RegisterEnv :=
  { userNow := 100, newUserID := "8", rnd := zeroBytes, now := 101, sessionNow := 102,
    newSessionID := "s8" }

/-- A registration form with the given email, password and repetition. -/
def registerRequest (email pwd repeat_ : String) : Request :=
  { Method := "POST", RemoteAddr := "10.0.0.1:5000",
    Form := [("email", email), ("password", pwd), ("repeat", repeat_)] }

/-! ## Lemmas on lists and on the session table -/

theorem find?_of_exists {α : Type} (p : α → Bool) (Q : α → Prop) (l : List α)
    (hex : ∃ x ∈ l, p x = true) (hall : ∀ x ∈ l, p x = true → Q x) :
    ∃ s, l.find? p = some s ∧ Q s := by
  cases hf : l.find? p with
  | none =>
    obtain ⟨x, hx, hpx⟩ := hex
    exact absurd hpx (List.find?_eq_none.mp hf x hx)
  | some s =>
    exact ⟨s, rfl, hall s (List.mem_of_find?_eq_some hf) (List.find?_some hf)⟩

/-- The row of a token is returned when it has an address. -/
theorem GetByCookieHash_of_find {db : DB} {cookieHash : String} {row : Session}
    (hfind : db.sessions.find? (fun r => r.CookieHash == cookieHash) = some row)
    (hip : row.IPAddress ≠ none) :
    SessionRepository.GetByCookieHash db cookieHash = .ok row := by
  unfold SessionRepository.GetByCookieHash
  rw [hfind]
  cases h : row.IPAddress with
  | none => exact absurd h hip
  | some a => simp only [h]

/-- A returned row is the first row with the token, and it has an address. -/
theorem GetByCookieHash_ok {db : DB} {cookieHash : String} {row : Session}
    (h : SessionRepository.GetByCookieHash db cookieHash = .ok row) :
    db.sessions.find? (fun r => r.CookieHash == cookieHash) = some row ∧
      row.IPAddress ≠ none := by
  unfold SessionRepository.GetByCookieHash at h
  cases hf : db.sessions.find? (fun r => r.CookieHash == cookieHash) with
  | none => simp [hf] at h
  | some s =>
    simp only [hf] at h
    cases hs : s.IPAddress with
    | none => simp [hs] at h
    | some a =>
      simp only [hs, Except.ok.injEq] at h
      subst h
      exact ⟨rfl, by simp [hs]⟩

/-- Without a row for the token the query reports `sql.ErrNoRows`. -/
theorem GetByCookieHash_of_find_none {db : DB} {cookieHash : String}
    (hfind : db.sessions.find? (fun r => r.CookieHash == cookieHash) = none) :
    SessionRepository.GetByCookieHash db cookieHash = .error .ErrNoRows := by
  unfold SessionRepository.GetByCookieHash
  rw [hfind]

theorem filter_eq_singleton {α β : Type} [DecidableEq β] (f : α → β) (l : List α) (x : α)
    (hnd : (l.map f).Nodup) (hx : x ∈ l) :
    l.filter (fun r => f r == f x) = [x] := by
  induction l with
  | nil => cases hx
  | cons a l ih =>
    rw [List.map_cons, List.nodup_cons] at hnd
    rcases List.mem_cons.mp hx with rfl | hx
    · have hnil : l.filter (fun r => f r == f x) = [] := by
        rw [List.filter_eq_nil_iff]
        intro y hy hfy
        have hfy : f y = f x := by simpa using hfy
        exact hnd.1 (hfy ▸ List.mem_map_of_mem f hy)
      simp [List.filter_cons, hnil]
    · have hne : f a ≠ f x := fun h => hnd.1 (h ▸ List.mem_map_of_mem f hx)
      simp [List.filter_cons, hne, ih hnd.2 hx]

/-- What `CreateSession` hands to the repository when it succeeds. -/
theorem CreateSession_ok {ss : SessionService} {db db1 : DB} {rnd : Except Error (List Nat)}
    {now dbNow : Time} {newID userID userAgent t : String} {ip : Option (List Nat)}
    (h : SessionService.CreateSession ss db rnd now dbNow newID userID ip userAgent = (.ok t, db1)) :
    db1 = (SessionRepository.Create db dbNow newID
      { UserID := userID, CookieHash := t, IPAddress := ip, UserAgent := userAgent,
        ExpiresAt := some (now + ss.sessionDuration) }).2 := by
  unfold SessionService.CreateSession at h
  cases hg : SessionService.GenerateSessionToken rnd with
  | error e => simp [hg] at h
  | ok tok =>
    simp only [hg] at h
    have hfst : ∀ s : Session,
        SessionRepository.Create db dbNow newID s =
          (.ok s.CookieHash, (SessionRepository.Create db dbNow newID s).2) := by
      intro s
      unfold SessionRepository.Create
      split <;> rfl
    rw [hfst] at h
    simp only [Prod.mk.injEq, Except.ok.injEq] at h
    obtain ⟨rfl, rfl⟩ := h
    rfl

/-- After the upsert, the row fetched for the new token is the row of that
user, and its expiry is NULL; the token must not be the token of another
user (a stale row of the same user is overwritten), and the session must
have an address, or `Scan` fails. -/
theorem Create_GetByCookieHash (db : DB) (dbNow : Time) (newID : String) (s : Session)
    (hfresh : ∀ r ∈ db.sessions, r.CookieHash = s.CookieHash → r.UserID = s.UserID)
    (hip : s.IPAddress ≠ none) :
    ∃ row, SessionRepository.GetByCookieHash
        (SessionRepository.Create db dbNow newID s).2 s.CookieHash = .ok row ∧
      row.UserID = s.UserID ∧ row.CookieHash = s.CookieHash ∧ row.ExpiresAt = none := by
  have key : ∃ row, (SessionRepository.Create db dbNow newID s).2.sessions.find?
        (fun r => r.CookieHash == s.CookieHash) = some row ∧
      (row.UserID = s.UserID ∧ row.CookieHash = s.CookieHash ∧ row.ExpiresAt = none ∧
        row.IPAddress = s.IPAddress) := by
    apply find?_of_exists
    · unfold SessionRepository.Create
      split
      · rename_i hany
        obtain ⟨x, hx, hxu⟩ := List.any_eq_true.mp hany
        have hxu : x.UserID = s.UserID := by simpa using hxu
        refine ⟨upsertRow dbNow s x, ?_, by simp [upsertRow]⟩
        simp only [List.mem_map]
        exact ⟨x, hx, by simp [hxu]⟩
      · exact ⟨{ ID := newID, UserID := s.UserID, CookieHash := s.CookieHash,
                 CreatedAt := dbNow, ExpiresAt := none,
                 IPAddress := s.IPAddress, UserAgent := s.UserAgent }, by simp, by simp⟩
    · unfold SessionRepository.Create
      split
      · rename_i hany
        intro y hy hpy
        simp only [List.mem_map] at hy
        obtain ⟨z, hz, rfl⟩ := hy
        by_cases hzu : z.UserID = s.UserID
        · simp [hzu, upsertRow]
        · simp only [hzu, if_false] at hpy ⊢
          have hzc : z.CookieHash = s.CookieHash := by simpa using hpy
          exact absurd (hfresh z hz hzc) hzu
      · rename_i hany
        intro y hy hpy
        simp only [List.mem_append, List.mem_singleton] at hy
        rcases hy with hy | rfl
        · have hyc : y.CookieHash = s.CookieHash := by simpa using hpy
          have hyu := hfresh y hy hyc
          exact absurd (List.any_eq_true.mpr ⟨y, hy, by simp [hyu]⟩) hany
        · simp
  obtain ⟨row, hfind, hu, ht, he, hrip⟩ := key
  exact ⟨row, GetByCookieHash_of_find hfind (by rw [hrip]; exact hip), hu, ht, he⟩

/-- The upsert keeps `UNIQUE (user_id)`, leaves exactly one row for the user,
carrying the new token, and leaves the rows of other users as they were. -/
theorem Create_sessions (db : DB) (dbNow : Time) (newID : String) (s : Session)
    (huniq : db.uniqueUserID) :
    (SessionRepository.Create db dbNow newID s).2.uniqueUserID ∧
    (∃ row, (SessionRepository.Create db dbNow newID s).2.sessions.filter
        (fun r => r.UserID == s.UserID) = [row] ∧
      row.CookieHash = s.CookieHash ∧ row.UserID = s.UserID) ∧
    (∀ r : Session, r.UserID ≠ s.UserID →
      (r ∈ (SessionRepository.Create db dbNow newID s).2.sessions ↔ r ∈ db.sessions)) := by
  unfold DB.uniqueUserID at huniq ⊢
  unfold SessionRepository.Create
  split
  · rename_i hany
    obtain ⟨x, hx, hxu⟩ := List.any_eq_true.mp hany
    have hxu : x.UserID = s.UserID := by simpa using hxu
    have hg : ∀ r : Session,
        (if r.UserID = s.UserID then upsertRow dbNow s r else r).UserID = r.UserID := by
      intro r; split <;> rfl
    refine ⟨?_, ?_, ?_⟩
    · have : (db.sessions.map
          (fun r => if r.UserID = s.UserID then upsertRow dbNow s r else r)).map Session.UserID
          = db.sessions.map Session.UserID := by
        rw [List.map_map]
        exact List.map_congr_left (fun r _ => hg r)
      simpa [this] using huniq
    · refine ⟨upsertRow dbNow s x, ?_, rfl, by simp [upsertRow, hxu]⟩
      simp only [List.filter_map]
      have hcomp : ((fun r : Session => r.UserID == s.UserID) ∘
          (fun r => if r.UserID = s.UserID then upsertRow dbNow s r else r))
          = (fun r : Session => Session.UserID r == Session.UserID x) := by
        funext r
        simp [Function.comp, hg r, hxu]
      rw [hcomp, filter_eq_singleton Session.UserID db.sessions x huniq hx]
      simp [hxu]
    · intro r hr
      simp only [List.mem_map]
      constructor
      · rintro ⟨z, hz, hzr⟩
        by_cases hzu : z.UserID = s.UserID
        · simp only [hzu, if_true] at hzr
          exact absurd (by rw [← hzr]; exact hzu) hr
        · simp only [hzu, if_false] at hzr
          exact hzr ▸ hz
      · intro hmem
        exact ⟨r, hmem, by simp [hr]⟩
  · rename_i hany
    have hnone : ∀ y ∈ db.sessions, y.UserID ≠ s.UserID := by
      intro y hy hyu
      exact hany (List.any_eq_true.mpr ⟨y, hy, by simp [hyu]⟩)
    refine ⟨?_, ?_, ?_⟩
    · simp only [List.map_append, List.map_cons, List.map_nil]
      rw [List.nodup_append]
      refine ⟨huniq, List.nodup_singleton _, ?_⟩
      intro a ha hb
      simp only [List.mem_singleton] at hb
      obtain ⟨y, hy, hya⟩ := List.mem_map.mp ha
      exact hnone y hy (hya.trans hb)
    · refine ⟨{ ID := newID, UserID := s.UserID, CookieHash := s.CookieHash,
                CreatedAt := dbNow, ExpiresAt := none,
                IPAddress := s.IPAddress, UserAgent := s.UserAgent }, ?_, rfl, rfl⟩
      rw [List.filter_append]
      have hnil : db.sessions.filter (fun r => r.UserID == s.UserID) = [] := by
        rw [List.filter_eq_nil_iff]
        intro y hy hyu
        exact hnone y hy (by simpa using hyu)
      simp [hnil, List.filter_cons]
    · intro r hr
      simp only [List.mem_append, List.mem_singleton]
      constructor
      · rintro (h | rfl)
        · exact h
        · exact absurd rfl hr
      · exact Or.inl

/-! ## C1 - C3: create, validate, expire -/

/-- C1, as the code behaves: when `CreateSession` for a client address `addr`
succeeds with token `t` (a token that no other user's row carries),
`ValidateSession t` right afterwards succeeds, leaves the store as it is, and
returns the session of the input user with token `t`, but its `ExpiresAt` is
NULL: the expiry computed by the service is not written by the repository, so
it is not "set and in the future". -/
theorem C1_validate_after_create_returns_null_expiry
    (ss : SessionService) (db db1 : DB) (rnd : Except Error (List Nat)) (now dbNow : Time)
    (newID userID : String) (addr : List Nat) (userAgent t : String) (now' : Time)
    (hc : SessionService.CreateSession ss db rnd now dbNow newID userID (some addr) userAgent
      = (.ok t, db1))
    (hfresh : ∀ r ∈ db.sessions, r.CookieHash = t → r.UserID = userID) :
    ∃ s, SessionService.ValidateSession db1 now' t = (.ok s, db1) ∧
      s.UserID = userID ∧ s.CookieHash = t ∧ s.ExpiresAt = none := by
  have hdb := CreateSession_ok hc
  obtain ⟨row, hget, hu, ht, he⟩ := Create_GetByCookieHash db dbNow newID
    { UserID := userID, CookieHash := t, IPAddress := some addr, UserAgent := userAgent,
      ExpiresAt := some (now + ss.sessionDuration) } hfresh (by simp)
  rw [← hdb] at hget
  refine ⟨row, ?_, hu, ht, he⟩
  simp only [] at hget
  simp [SessionService.ValidateSession, hget, he]

theorem C1_validate_after_create_returns_null_expiry_witness :
    SessionService.CreateSession NewSessionService {} zeroBytes 1000 1001 "s1" "u1"
        (some [10, 0, 0, 1]) "curl" = (.ok zeroToken, dbAfterFirstLogin) ∧
    (∀ r ∈ ({} : DB).sessions, r.CookieHash = zeroToken → r.UserID = "u1") ∧
    ∃ s, SessionService.ValidateSession dbAfterFirstLogin 1002 zeroToken
        = (.ok s, dbAfterFirstLogin) ∧
      s.UserID = "u1" ∧ s.CookieHash = zeroToken ∧ s.ExpiresAt = none :=
  ⟨rfl, by simp,
    C1_validate_after_create_returns_null_expiry NewSessionService {} dbAfterFirstLogin
      zeroBytes 1000 1001 "s1" "u1" [10, 0, 0, 1] "curl" zeroToken 1002 rfl (by simp)⟩

/-- C2: on a store that satisfies `UNIQUE (user_id)`, after two successful
`CreateSession` calls for one user returning `t1` and then `t2` with
`t1 ≠ t2` (`t1` not being the token of another user's row), the store holds
exactly one row for that user, the row carries `t2`, and `ValidateSession t1`
fails with `ErrInvalidSession`. -/
theorem C2_second_session_supersedes_first
    (ss : SessionService) (db db1 db2 : DB) (userID t1 t2 : String)
    (rnd1 rnd2 : Except Error (List Nat)) (now1 dbNow1 now2 dbNow2 : Time)
    (newID1 newID2 : String) (ip1 ip2 : Option (List Nat)) (userAgent1 userAgent2 : String)
    (now' : Time)
    (huniq : db.uniqueUserID)
    (hfresh : ∀ r ∈ db.sessions, r.UserID ≠ userID → r.CookieHash ≠ t1)
    (h1 : SessionService.CreateSession ss db rnd1 now1 dbNow1 newID1 userID ip1 userAgent1
      = (.ok t1, db1))
    (h2 : SessionService.CreateSession ss db1 rnd2 now2 dbNow2 newID2 userID ip2 userAgent2
      = (.ok t2, db2))
    (hne : t1 ≠ t2) :
    (∃ row, db2.sessions.filter (fun r => r.UserID == userID) = [row] ∧ row.CookieHash = t2) ∧
    SessionService.ValidateSession db2 now' t1 = (.error .ErrInvalidSession, db2) := by
  have hdb1 := CreateSession_ok h1
  have hdb2 := CreateSession_ok h2
  obtain ⟨huniq1, -, hother1⟩ := Create_sessions db dbNow1 newID1
    { UserID := userID, CookieHash := t1, IPAddress := ip1, UserAgent := userAgent1,
      ExpiresAt := some (now1 + ss.sessionDuration) } huniq
  rw [← hdb1] at huniq1 hother1
  obtain ⟨-, ⟨row, hrow, hrowt, -⟩, hother2⟩ := Create_sessions db1 dbNow2 newID2
    { UserID := userID, CookieHash := t2, IPAddress := ip2, UserAgent := userAgent2,
      ExpiresAt := some (now2 + ss.sessionDuration) } huniq1
  rw [← hdb2] at hrow hother2
  simp only [] at hrow hrowt hother1 hother2
  refine ⟨⟨row, hrow, hrowt⟩, ?_⟩
  have hnone : db2.sessions.find? (fun r => r.CookieHash == t1) = none := by
    rw [List.find?_eq_none]
    intro r hr hrt
    have hrt : r.CookieHash = t1 := by simpa using hrt
    by_cases hru : r.UserID = userID
    · have hmem : r ∈ db2.sessions.filter (fun r => r.UserID == userID) :=
        List.mem_filter.mpr ⟨hr, by simp [hru]⟩
      rw [hrow, List.mem_singleton] at hmem
      exact hne (by rw [← hrt, hmem, hrowt])
    · exact hfresh r ((hother1 r hru).mp ((hother2 r hru).mp hr)) hru hrt
  simp [SessionService.ValidateSession, SessionRepository.GetByCookieHash, hnone]

theorem C2_second_session_supersedes_first_witness :
    ({} : DB).uniqueUserID ∧
    (∀ r ∈ ({} : DB).sessions, r.UserID ≠ "u1" → r.CookieHash ≠ zeroToken) ∧
    SessionService.CreateSession NewSessionService {} zeroBytes 1000 1001 "s1" "u1"
        (some [10, 0, 0, 1]) "curl" = (.ok zeroToken, dbAfterFirstLogin) ∧
    SessionService.CreateSession NewSessionService dbAfterFirstLogin onesBytes 5000 5001 "s2"
        "u1" (some [10, 0, 0, 2]) "firefox" = (.ok onesToken, dbAfterSecondLogin) ∧
    zeroToken ≠ onesToken ∧
    (∃ row, dbAfterSecondLogin.sessions.filter (fun r => r.UserID == "u1") = [row] ∧
      row.CookieHash = onesToken) ∧
    SessionService.ValidateSession dbAfterSecondLogin 6000 zeroToken
      = (.error .ErrInvalidSession, dbAfterSecondLogin) :=
  ⟨List.nodup_nil, by simp, rfl, rfl, by decide,
    C2_second_session_supersedes_first NewSessionService {} dbAfterFirstLogin
      dbAfterSecondLogin "u1" zeroToken onesToken zeroBytes onesBytes 1000 1001 5000 5001
      "s1" "s2" (some [10, 0, 0, 1]) (some [10, 0, 0, 2]) "curl" "firefox" 6000
      List.nodup_nil (by simp) rfl rfl (by decide)⟩

/-- C3: for a stored session `s` whose `ExpiresAt` is set and lies before `now`
(`s` being the only row with its token, and a row the repository can read: its
`ip_address` is not NULL), `ValidateSession` on its token fails with
`ErrSessionExpired` and deletes the row; a later `ValidateSession` on the
same token, at any time, fails with `ErrInvalidSession`. -/
theorem C3_expired_session_is_deleted
    (db : DB) (s : Session) (e now now' : Time)
    (hmem : s ∈ db.sessions) (hexp : s.ExpiresAt = some e) (hlt : e < now)
    (huniq : ∀ r ∈ db.sessions, r.CookieHash = s.CookieHash → r = s)
    (hip : s.IPAddress ≠ none) :
    ∃ db1, SessionService.ValidateSession db now s.CookieHash = (.error .ErrSessionExpired, db1) ∧
      db1.sessions = db.sessions.filter (fun r => r.CookieHash != s.CookieHash) ∧
      db1.users = db.users ∧
      s ∉ db1.sessions ∧
      SessionService.ValidateSession db1 now' s.CookieHash = (.error .ErrInvalidSession, db1) := by
  obtain ⟨row, hfind, hrow⟩ := find?_of_exists (fun r : Session => r.CookieHash == s.CookieHash)
    (fun r => r = s) db.sessions ⟨s, hmem, by simp⟩
    (fun r hr hp => huniq r hr (by simpa using hp))
  subst hrow
  have hget := GetByCookieHash_of_find hfind hip
  refine ⟨(SessionRepository.DeleteByCookieHash db row.CookieHash).2, ?_, rfl, rfl, ?_, ?_⟩
  · simp [SessionService.ValidateSession, hget, hexp, hlt]
  · simp [SessionRepository.DeleteByCookieHash, List.mem_filter]
  · have hnone : (SessionRepository.DeleteByCookieHash db row.CookieHash).2.sessions.find?
        (fun r => r.CookieHash == row.CookieHash) = none := by
      rw [List.find?_eq_none]
      intro r hr
      simp only [SessionRepository.DeleteByCookieHash, List.mem_filter] at hr
      simpa using hr.2
    simp [SessionService.ValidateSession, GetByCookieHash_of_find_none hnone]

theorem C3_expired_session_is_deleted_witness :
    staleSession ∈ ({ sessions := [staleSession] } : DB).sessions ∧
    staleSession.ExpiresAt = some 5 ∧ (5 : Time) < 10 ∧
    staleSession.IPAddress = some [10, 0, 0, 1] ∧
    ∃ db1, SessionService.ValidateSession { sessions := [staleSession] } 10
        staleSession.CookieHash = (.error .ErrSessionExpired, db1) ∧
      db1.sessions = ({ sessions := [staleSession] } : DB).sessions.filter
        (fun r => r.CookieHash != staleSession.CookieHash) ∧
      db1.users = ({ sessions := [staleSession] } : DB).users ∧
      staleSession ∉ db1.sessions ∧
      SessionService.ValidateSession db1 11 staleSession.CookieHash
        = (.error .ErrInvalidSession, db1) :=
  ⟨by simp, rfl, by decide, rfl,
    C3_expired_session_is_deleted { sessions := [staleSession] } staleSession 5 10 11
      (by simp) rfl (by decide) (by simp) (by decide)⟩

/-! ## C4 - C5: the auth gate -/

/-- A successful `ValidateSession` leaves the database as it is. -/
theorem ValidateSession_ok_db {db : DB} {now : Time} {cookieHash : String} {session : Session}
    (h : (SessionService.ValidateSession db now cookieHash).1 = .ok session) :
    SessionService.ValidateSession db now cookieHash = (.ok session, db) := by
  unfold SessionService.ValidateSession at h ⊢
  cases hg : SessionRepository.GetByCookieHash db cookieHash with
  | error e => simp [hg] at h
  | ok row =>
    simp only [hg] at h ⊢
    cases he : row.ExpiresAt with
    | none => simp only [he] at h ⊢; rw [h]
    | some e =>
      simp only [he] at h ⊢
      by_cases hlt : now > e
      · simp [hlt] at h
      · simp only [hlt, if_false] at h ⊢; rw [h]

/-- C4, as the code behaves: when the session cookie validates and `users` has
no row for the session's user, `GetUserByID` returns `(nil, nil)`, so the gate
takes the success path: it calls the next handler with a nil user in the
context and the database untouched; the session is not revoked and there is
no redirect. -/
theorem C4_orphaned_session_is_forwarded
    (now : Time) (next : Handler DB) (w : ResponseWriter) (r : Request) (db : DB)
    (cookie : Cookie) (session : Session)
    (hc : r.Cookie "session" = .ok cookie)
    (hv : (SessionService.ValidateSession db now cookie.Value).1 = .ok session)
    (hu : ∀ u ∈ db.users, u.ID ≠ session.UserID) :
    UserRepo.GetUserByID db session.UserID = .ok none ∧
    Middleware.AuthMiddleware now next w r db = next w { r with userkey := some none } db := by
  have hnone : db.users.find? (fun u => u.ID == session.UserID) = none := by
    rw [List.find?_eq_none]
    intro u hmem
    simpa using hu u hmem
  have hget : UserRepo.GetUserByID db session.UserID = .ok none := by
    simp [UserRepo.GetUserByID, hnone]
  refine ⟨hget, ?_⟩
  unfold Middleware.AuthMiddleware
  simp only [hc, ValidateSession_ok_db hv, hget]

theorem C4_orphaned_session_is_forwarded_witness :
    sessionRequest.Cookie "session" = .ok { Name := "session", Value := zeroToken } ∧
    (SessionService.ValidateSession dbAfterFirstLogin 2000 zeroToken).1
      = .ok { ID := "s1", UserID := "u1", CookieHash := zeroToken, CreatedAt := 1001,
              ExpiresAt := none, IPAddress := some [10, 0, 0, 1], UserAgent := "curl" } ∧
    (∀ u ∈ dbAfterFirstLogin.users, u.ID ≠ "u1") ∧
    UserRepo.GetUserByID dbAfterFirstLogin "u1" = .ok none ∧
    Middleware.AuthMiddleware 2000 markNext [] sessionRequest dbAfterFirstLogin
      = ([.Write "handler, nil user"], dbAfterFirstLogin) :=
  ⟨rfl, rfl, by simp [dbAfterFirstLogin],
    C4_orphaned_session_is_forwarded 2000 markNext [] sessionRequest dbAfterFirstLogin
      { Name := "session", Value := zeroToken }
      { ID := "s1", UserID := "u1", CookieHash := zeroToken, CreatedAt := 1001,
        ExpiresAt := none, IPAddress := some [10, 0, 0, 1], UserAgent := "curl" }
      rfl rfl (by simp [dbAfterFirstLogin])⟩

/-- C5: a request without a session cookie is answered with a redirect to
`/login`; a request whose session cookie fails `ValidateSession` is answered
with the session cookie cleared (empty value, `MaxAge` -1) and a redirect to
`/login`, the database being what `ValidateSession` left.  Neither answer
depends on the next handler, which is not called. -/
theorem C5_unauthenticated_request_is_redirected
    (now : Time) (next : Handler DB) (w : ResponseWriter) (r : Request) (db : DB) :
    (∀ e, r.Cookie "session" = .error e →
      Middleware.AuthMiddleware now next w r db
        = (w ++ [.Redirect "/login" 303], db)) ∧
    (∀ c e, r.Cookie "session" = .ok c →
      (SessionService.ValidateSession db now c.Value).1 = .error e →
      Middleware.AuthMiddleware now next w r db
        = (w ++ [.SetCookie { Name := "session", Value := "", Path := "/", HttpOnly := true,
                              Secure := true, MaxAge := -1 },
                 .Redirect "/login" 303],
           (SessionService.ValidateSession db now c.Value).2)) := by
  refine ⟨?_, ?_⟩
  · intro e he
    simp [Middleware.AuthMiddleware, he, StatusSeeOther]
  · intro c e hc hv
    unfold Middleware.AuthMiddleware
    simp only [hc]
    cases hres : SessionService.ValidateSession db now c.Value with
    | mk res db1 =>
      rw [hres] at hv
      simp only [] at hv
      subst hv
      simp [StatusSeeOther, clearedSessionCookie]

theorem C5_unauthenticated_request_is_redirected_witness :
    (Middleware.AuthMiddleware 10 markNext [] { Method := "GET" } { sessions := [staleSession] }
      = ([.Redirect "/login" 303], { sessions := [staleSession] })) ∧
    (Middleware.AuthMiddleware 10 markNext []
        { Method := "GET", Cookies := [{ Name := "session", Value := "tok" }] }
        { sessions := [staleSession] }
      = ([.SetCookie { Name := "session", Value := "", Path := "/", HttpOnly := true,
                       Secure := true, MaxAge := -1 },
          .Redirect "/login" 303],
         (SessionService.ValidateSession { sessions := [staleSession] } 10 "tok").2)) :=
  ⟨(C5_unauthenticated_request_is_redirected 10 markNext [] { Method := "GET" }
      { sessions := [staleSession] }).1 .ErrNoCookie rfl,
   (C5_unauthenticated_request_is_redirected 10 markNext []
      { Method := "GET", Cookies := [{ Name := "session", Value := "tok" }] }
      { sessions := [staleSession] }).2 { Name := "session", Value := "tok" }
      .ErrSessionExpired rfl rfl⟩

/-! ## C6 - C7: the CSRF guard -/

/-- C6 fails as stated: a POST whose `csrf_token` cookie and `csrf_token` field
carry the same value, the empty string, is answered 403 and does not reach the
next handler. -/
theorem C6_counterexample_equal_empty_tokens :
    emptyTokenPost.Method = "POST" ∧
    emptyTokenPost.Cookie "csrf_token" = .ok { Name := "csrf_token", Value := "" } ∧
    ("csrf_token", "") ∈ emptyTokenPost.Form ∧
    emptyTokenPost.FormValue "csrf_token" = "" ∧
    Middleware.CSRFMiddleware markNext [] emptyTokenPost ()
      = ([.Error "Invalid CSRF token" 403], ()) ∧
    Middleware.CSRFMiddleware markNext [] emptyTokenPost () ≠ markNext [] emptyTokenPost () := by
  refine ⟨rfl, rfl, by simp [emptyTokenPost], rfl, ?_, ?_⟩ <;>
    simp [Middleware.CSRFMiddleware, emptyTokenPost, MethodGet, Request.Cookie,
      Request.FormValue, StatusForbidden, markNext]

/-- C6, amended: for a POST, when the `csrf_token` cookie and the `csrf_token`
field carry the same non-empty value the guard forwards to the next handler;
when the cookie is absent it answers 403 "CSRF token missing"; when the cookie
is present and the field is absent, empty or different from the cookie it
answers 403 "Invalid CSRF token"; in both 403 cases the next handler is not
called. -/
theorem C6_csrf_guard_on_post {σ : Type}
    (next : Handler σ) (w : ResponseWriter) (r : Request) (s : σ) (hm : r.Method = "POST") :
    (∀ c, r.Cookie "csrf_token" = .ok c → r.FormValue "csrf_token" = c.Value →
      c.Value ≠ "" → Middleware.CSRFMiddleware next w r s = next w r s) ∧
    (∀ e, r.Cookie "csrf_token" = .error e →
      Middleware.CSRFMiddleware next w r s = (w ++ [.Error "CSRF token missing" 403], s)) ∧
    (∀ c, r.Cookie "csrf_token" = .ok c →
      ((∀ p ∈ r.Form, p.1 ≠ "csrf_token") ∨ r.FormValue "csrf_token" = "" ∨
        r.FormValue "csrf_token" ≠ c.Value) →
      Middleware.CSRFMiddleware next w r s = (w ++ [.Error "Invalid CSRF token" 403], s)) := by
  have hget : ¬ r.Method = MethodGet := by rw [hm]; decide
  refine ⟨?_, ?_, ?_⟩
  · intro c hc hv hne
    have hne' : ¬ r.FormValue "csrf_token" = "" := by rw [hv]; exact hne
    simp [Middleware.CSRFMiddleware, hget, hc, hv, hne]
  · intro e hc
    simp [Middleware.CSRFMiddleware, hget, hc, StatusForbidden]
  · intro c hc h
    have hbad : r.FormValue "csrf_token" = "" ∨ r.FormValue "csrf_token" ≠ c.Value := by
      rcases h with h | h | h
      · left
        have hnone : r.Form.find? (fun p => p.1 == "csrf_token") = none := by
          rw [List.find?_eq_none]
          intro p hp
          simpa using h p hp
        simp [Request.FormValue, hnone]
      · exact Or.inl h
      · exact Or.inr h
    simp [Middleware.CSRFMiddleware, hget, hc, hbad, StatusForbidden]

theorem C6_csrf_guard_on_post_witness :
    Middleware.CSRFMiddleware markNext []
        { Method := "POST", Cookies := [{ Name := "csrf_token", Value := "abc" }],
          Form := [("csrf_token", "abc")] } ()
      = markNext []
        { Method := "POST", Cookies := [{ Name := "csrf_token", Value := "abc" }],
          Form := [("csrf_token", "abc")] } () :=
  (C6_csrf_guard_on_post markNext []
      { Method := "POST", Cookies := [{ Name := "csrf_token", Value := "abc" }],
        Form := [("csrf_token", "abc")] } () rfl).1
    { Name := "csrf_token", Value := "abc" } rfl rfl (by decide)

/-- C7 fails as stated: a HEAD request without a `csrf_token` cookie is
answered 403 and does not reach the next handler. -/
theorem C7_counterexample_head_is_checked :
    headRequest.Method = "HEAD" ∧
    Middleware.CSRFMiddleware markNext [] headRequest ()
      = ([.Error "CSRF token missing" 403], ()) ∧
    Middleware.CSRFMiddleware markNext [] headRequest () ≠ markNext [] headRequest () := by
  refine ⟨rfl, ?_, ?_⟩ <;>
    simp [Middleware.CSRFMiddleware, headRequest, MethodGet, Request.Cookie,
      StatusForbidden, markNext]

/-- C7, amended: for every request whose method is GET the guard calls the next
handler on the same writer, request and state, whatever the `csrf_token`
cookie and field are.  Every other method, HEAD and OPTIONS included, is
checked: without a `csrf_token` cookie the answer is 403 and the next handler
is not called. -/
theorem C7_csrf_guard_passes_get {σ : Type}
    (next : Handler σ) (w : ResponseWriter) (r : Request) (s : σ) :
    (r.Method = "GET" → Middleware.CSRFMiddleware next w r s = next w r s) ∧
    (r.Method ≠ "GET" → ∀ e, r.Cookie "csrf_token" = .error e →
      Middleware.CSRFMiddleware next w r s = (w ++ [.Error "CSRF token missing" 403], s)) := by
  refine ⟨fun hm => ?_, fun hm e hc => ?_⟩
  · simp [Middleware.CSRFMiddleware, hm, MethodGet]
  · have hget : ¬ r.Method = MethodGet := hm
    simp [Middleware.CSRFMiddleware, hget, hc, StatusForbidden]

theorem C7_csrf_guard_passes_get_witness :
    Middleware.CSRFMiddleware markNext []
        { Method := "GET", Cookies := [{ Name := "csrf_token", Value := "abc" }],
          Form := [("csrf_token", "xyz")] } ()
      = ([.Write "handler"], ()) ∧
    Middleware.CSRFMiddleware markNext [] { Method := "OPTIONS" } ()
      = ([.Error "CSRF token missing" 403], ()) :=
  ⟨(C7_csrf_guard_passes_get markNext []
      { Method := "GET", Cookies := [{ Name := "csrf_token", Value := "abc" }],
        Form := [("csrf_token", "xyz")] } ()).1 rfl,
   (C7_csrf_guard_passes_get markNext [] { Method := "OPTIONS" } ()).2 (by decide)
      .ErrNoCookie rfl⟩

/-! ## C8 - C9: the rate limiter -/

theorem Minute_pos : (0 : Int) < Minute := by decide

theorem currentBucket_of_none {clients : Clients} {ip : List Nat} (now : Time)
    (h : clients ip = none) : currentBucket clients ip now = { count := 0, lastReset := now } := by
  have : ¬ (now - now > Minute) := by
    rw [sub_self]
    exact not_lt.mpr (le_of_lt Minute_pos)
  simp [currentBucket, h, this]

theorem currentBucket_in_window {clients : Clients} {ip : List Nat} {c : client} {now : Time}
    (h : clients ip = some c) (hw : now - c.lastReset ≤ Minute) :
    currentBucket clients ip now = c := by
  have : ¬ (now - c.lastReset > Minute) := not_lt.mpr hw
  simp [currentBucket, h, this]

theorem currentBucket_after_window {clients : Clients} {ip : List Nat} {c : client} {now : Time}
    (h : clients ip = some c) (hw : Minute < now - c.lastReset) :
    currentBucket clients ip now = { count := 0, lastReset := now } := by
  simp [currentBucket, h, hw]

/-- A bucket with a non-zero count after the reset step is the stored bucket. -/
theorem currentBucket_stored {clients : Clients} {ip : List Nat} {now : Time}
    (h : (currentBucket clients ip now).count ≠ 0) :
    clients ip = some (currentBucket clients ip now) := by
  cases hc : clients ip with
  | none => rw [currentBucket_of_none now hc] at h; exact absurd rfl h
  | some c =>
    by_cases hw : Minute < now - c.lastReset
    · rw [currentBucket_after_window hc hw] at h; exact absurd rfl h
    · rw [currentBucket_in_window hc (not_lt.mp hw)]

theorem currentBucket_bounded {clients : Clients} (hb : countsBounded clients)
    (ip : List Nat) (now : Time) :
    0 ≤ (currentBucket clients ip now).count ∧ (currentBucket clients ip now).count ≤ 100 := by
  by_cases h : (currentBucket clients ip now).count = 0
  · rw [h]; decide
  · exact hb ip _ (currentBucket_stored h)

theorem RateLimit_reject {σ : Type} (net : NetLib) (now : Time) (next : Handler σ)
    (w : ResponseWriter) (r : Request) (st : Clients × σ) (ip : List Nat)
    (hip : GetIPAddressBytes net r = some ip)
    (h : 100 ≤ (currentBucket st.1 ip now).count) :
    Middleware.RateLimitMiddleware net now next w r st
      = (w ++ [.Error "Rate limit exceeded" 429], st) := by
  have hne : (currentBucket st.1 ip now).count ≠ 0 := by omega
  have hupd : Function.update st.1 ip (some (currentBucket st.1 ip now)) = st.1 := by
    rw [← currentBucket_stored hne]
    exact Function.update_eq_self ip st.1
  simp [Middleware.RateLimitMiddleware, hip, h, hupd, StatusTooManyRequests]

theorem RateLimit_forward {σ : Type} (net : NetLib) (now : Time) (next : Handler σ)
    (w : ResponseWriter) (r : Request) (st : Clients × σ) (ip : List Nat)
    (hip : GetIPAddressBytes net r = some ip)
    (h : (currentBucket st.1 ip now).count < 100) :
    Middleware.RateLimitMiddleware net now next w r st
      = ((next w r st.2).1,
         (Function.update st.1 ip
            (some { count := (currentBucket st.1 ip now).count + 1,
                    lastReset := (currentBucket st.1 ip now).lastReset }),
          (next w r st.2).2)) := by
  have hnot : ¬ (100 ≤ (currentBucket st.1 ip now).count) := by omega
  simp [Middleware.RateLimitMiddleware, hip, hnot]

theorem RateLimit_no_ip {σ : Type} (net : NetLib) (now : Time) (next : Handler σ)
    (w : ResponseWriter) (r : Request) (st : Clients × σ)
    (hip : GetIPAddressBytes net r = none) :
    Middleware.RateLimitMiddleware net now next w r st
      = (w ++ [.Error "Could not determine client IP" 400], st) := by
  simp [Middleware.RateLimitMiddleware, hip, StatusBadRequest]

/-- One request keeps every count between 0 and 100. -/
theorem RateLimit_countsBounded {σ : Type} (net : NetLib) (now : Time) (next : Handler σ)
    (w : ResponseWriter) (r : Request) (st : Clients × σ) (hb : countsBounded st.1) :
    countsBounded (Middleware.RateLimitMiddleware net now next w r st).2.1 := by
  cases hip : GetIPAddressBytes net r with
  | none => rw [RateLimit_no_ip net now next w r st hip]; exact hb
  | some ip =>
    have hcb := currentBucket_bounded hb ip now
    by_cases h : 100 ≤ (currentBucket st.1 ip now).count
    · rw [RateLimit_reject net now next w r st ip hip h]; exact hb
    · rw [RateLimit_forward net now next w r st ip hip (by omega)]
      intro ip' c hc
      by_cases hip' : ip' = ip
      · subst hip'
        simp only [Function.update_same, Option.some.injEq] at hc
        subst hc
        simp only []
        omega
      · simp only [Function.update_noteq hip'] at hc
        exact hb ip' c hc

theorem serve_countsBounded {σ : Type} (net : NetLib) (next : Handler σ)
    (reqs : List (Time × ResponseWriter × Request)) :
    ∀ st : Clients × σ, countsBounded st.1 → countsBounded (serve net next reqs st).1 := by
  induction reqs with
  | nil => intro st hb; exact hb
  | cons q rest ih =>
    intro st hb
    exact ih _ (RateLimit_countsBounded net q.1 next q.2.1 q.2.2 st hb)

/-- Requests of one address inside the window started at `t0` advance the
count of its bucket by one each, up to 100, and keep the window start. -/
theorem serve_bucket {σ : Type} (net : NetLib) (next : Handler σ) (ip : List Nat) (t0 : Time)
    (reqs : List (Time × ResponseWriter × Request)) :
    ∀ (st : Clients × σ) (k : Int), st.1 ip = some { count := k, lastReset := t0 } →
      0 ≤ k → k ≤ 100 →
      (∀ q ∈ reqs, GetIPAddressBytes net q.2.2 = some ip ∧ q.1 - t0 ≤ Minute) →
      (serve net next reqs st).1 ip
        = some { count := min (k + reqs.length) 100, lastReset := t0 } := by
  induction reqs with
  | nil =>
    intro st k hst h0 h100 _
    simp only [serve, List.length_nil, Nat.cast_zero, add_zero]
    rw [hst, min_eq_left h100]
  | cons q rest ih =>
    intro st k hst h0 h100 hall
    obtain ⟨hip, hw⟩ := hall q (List.mem_cons_self q rest)
    have hrest : ∀ q' ∈ rest, GetIPAddressBytes net q'.2.2 = some ip ∧ q'.1 - t0 ≤ Minute :=
      fun q' hq' => hall q' (List.mem_cons_of_mem q hq')
    have hcur : currentBucket st.1 ip q.1 = { count := k, lastReset := t0 } :=
      currentBucket_in_window hst hw
    simp only [serve, List.length_cons, Nat.cast_add, Nat.cast_one]
    by_cases hk : 100 ≤ k
    · have hk100 : k = 100 := by omega
      rw [RateLimit_reject net q.1 next q.2.1 q.2.2 st ip hip (by rw [hcur]; exact hk)]
      rw [ih st k hst h0 h100 hrest]
      subst hk100
      congr 2
      omega
    · rw [RateLimit_forward net q.1 next q.2.1 q.2.2 st ip hip (by rw [hcur]; simp only []; omega)]
      rw [ih _ (k + 1) (by simp [hcur]) (by omega) (by omega) hrest]
      congr 2
      omega

/-- C8: start from the empty map and let one address send a first request at
`t0` and then the requests `rest`, none of them later than one minute after
`t0`.  The first request is forwarded.  The request that comes next, at `now`
(request number `rest.length + 2`): inside the window it is forwarded while
fewer than 100 came before it, and it is answered 429 with the state as it was
once 100 or more came before it; later than one minute after `t0` it is
forwarded and its bucket restarts with count 1 and window start `now`. -/
theorem C8_fixed_window_lets_100_through {σ : Type}
    (net : NetLib) (next : Handler σ) (ip : List Nat) (s0 : σ)
    (t0 : Time) (w0 : ResponseWriter) (r0 : Request)
    (rest : List (Time × ResponseWriter × Request))
    (now : Time) (w : ResponseWriter) (r : Request) (st : Clients × σ)
    (hip0 : GetIPAddressBytes net r0 = some ip)
    (hrest : ∀ q ∈ rest, GetIPAddressBytes net q.2.2 = some ip ∧ q.1 - t0 ≤ Minute)
    (hip : GetIPAddressBytes net r = some ip)
    (hst : st = serve net next ((t0, w0, r0) :: rest) (fun _ => none, s0)) :
    Middleware.RateLimitMiddleware net t0 next w0 r0 (fun _ => none, s0)
      = ((next w0 r0 s0).1,
         (Function.update (fun _ => none) ip (some { count := 1, lastReset := t0 }),
          (next w0 r0 s0).2)) ∧
    (now - t0 ≤ Minute → rest.length + 1 < 100 →
      Middleware.RateLimitMiddleware net now next w r st
        = ((next w r st.2).1,
           (Function.update st.1 ip (some { count := rest.length + 2, lastReset := t0 }),
            (next w r st.2).2))) ∧
    (now - t0 ≤ Minute → 100 ≤ rest.length + 1 →
      Middleware.RateLimitMiddleware net now next w r st
        = (w ++ [.Error "Rate limit exceeded" 429], st)) ∧
    (Minute < now - t0 →
      Middleware.RateLimitMiddleware net now next w r st
        = ((next w r st.2).1,
           (Function.update st.1 ip (some { count := 1, lastReset := now }),
            (next w r st.2).2))) := by
  have hempty : currentBucket (fun _ => none) ip t0 = { count := 0, lastReset := t0 } :=
    currentBucket_of_none t0 rfl
  have hfirst : Middleware.RateLimitMiddleware net t0 next w0 r0 (fun _ => none, s0)
      = ((next w0 r0 s0).1,
         (Function.update (fun _ => none) ip (some { count := 1, lastReset := t0 }),
          (next w0 r0 s0).2)) := by
    rw [RateLimit_forward net t0 next w0 r0 (fun _ => none, s0) ip hip0
      (by simp only [hempty]; decide)]
    simp only [hempty]
    rfl
  have hbucket : st.1 ip
      = some { count := min ((1 : Int) + rest.length) 100, lastReset := t0 } := by
    rw [hst]
    simp only [serve, hfirst]
    exact serve_bucket net next ip t0 rest _ 1 (by simp) (by decide) (by decide) hrest
  refine ⟨hfirst, ?_, ?_, ?_⟩
  · intro hw hlt
    have hmin : min ((1 : Int) + rest.length) 100 = rest.length + 1 := by omega
    rw [hmin] at hbucket
    have hcur := currentBucket_in_window hbucket hw
    have h2 : ((rest.length : Int) + 1) + 1 = rest.length + 2 := by omega
    rw [RateLimit_forward net now next w r st ip hip (by rw [hcur]; simp only []; omega), hcur]
    simp only [h2]
  · intro hw hge
    have hcur := currentBucket_in_window hbucket hw
    exact RateLimit_reject net now next w r st ip hip (by rw [hcur]; simp only []; omega)
  · intro hw
    have hcur := currentBucket_after_window hbucket hw
    rw [RateLimit_forward net now next w r st ip hip
      (by rw [hcur]; exact (by decide : (0 : Int) < 100)), hcur]
    rfl

theorem C8_fixed_window_lets_100_through_witness :
    GetIPAddressBytes exampleNet peerRequest = some exampleIP ∧
    (∀ q ∈ List.replicate 99 ((30 * Second, [], peerRequest) : Time × ResponseWriter × Request),
      GetIPAddressBytes exampleNet q.2.2 = some exampleIP ∧ q.1 - 0 ≤ Minute) ∧
    Middleware.RateLimitMiddleware exampleNet (60 * Second) markNext [] peerRequest
        (serve exampleNet markNext
          ((0, [], peerRequest) :: List.replicate 99 (30 * Second, [], peerRequest))
          (fun _ => none, ()))
      = ([.Error "Rate limit exceeded" 429],
         serve exampleNet markNext
          ((0, [], peerRequest) :: List.replicate 99 (30 * Second, [], peerRequest))
          (fun _ => none, ())) ∧
    (Middleware.RateLimitMiddleware exampleNet (61 * Second) markNext [] peerRequest
        (serve exampleNet markNext
          ((0, [], peerRequest) :: List.replicate 99 (30 * Second, [], peerRequest))
          (fun _ => none, ()))).1 = [.Write "handler"] :=
  ⟨rfl,
   fun q hq => by rw [List.eq_of_mem_replicate hq]; exact ⟨rfl, by decide⟩,
   (C8_fixed_window_lets_100_through exampleNet markNext exampleIP () 0 [] peerRequest
      (List.replicate 99 (30 * Second, [], peerRequest)) (60 * Second) [] peerRequest _
      rfl (fun q hq => by rw [List.eq_of_mem_replicate hq]; exact ⟨rfl, by decide⟩)
      rfl rfl).2.2.1 (by decide) (by simp),
   by
    rw [(C8_fixed_window_lets_100_through exampleNet markNext exampleIP () 0 [] peerRequest
      (List.replicate 99 (30 * Second, [], peerRequest)) (61 * Second) [] peerRequest _
      rfl (fun q hq => by rw [List.eq_of_mem_replicate hq]; exact ⟨rfl, by decide⟩)
      rfl rfl).2.2.2 (by decide)]
    rfl⟩

/-- C9: in the state `st` reached from the empty map by any list of requests,
every bucket holds a count between 0 and 100.  For a further request of
address `ip` at `now`, the count of its bucket after the reset step is between
0 and 100; the request is answered 429 whatever the next handler is exactly
when that count is 100, and then the state (the count included) stays as it
was; otherwise the next handler is called and the count grows by one. -/
theorem C9_counts_stay_between_0_and_100 {σ : Type}
    (net : NetLib) (next : Handler σ) (reqs : List (Time × ResponseWriter × Request)) (s0 : σ)
    (now : Time) (w : ResponseWriter) (r : Request) (ip : List Nat) (st : Clients × σ)
    (hst : st = serve net next reqs (fun _ => none, s0))
    (hip : GetIPAddressBytes net r = some ip) :
    (∀ ip' c, st.1 ip' = some c → 0 ≤ c.count ∧ c.count ≤ 100) ∧
    (0 ≤ (currentBucket st.1 ip now).count ∧ (currentBucket st.1 ip now).count ≤ 100) ∧
    ((currentBucket st.1 ip now).count = 100 ↔
      ∀ next' : Handler σ, (Middleware.RateLimitMiddleware net now next' w r st).1
        = w ++ [.Error "Rate limit exceeded" 429]) ∧
    ((currentBucket st.1 ip now).count = 100 →
      ∀ next' : Handler σ, Middleware.RateLimitMiddleware net now next' w r st
        = (w ++ [.Error "Rate limit exceeded" 429], st)) ∧
    ((currentBucket st.1 ip now).count ≠ 100 →
      ∀ next' : Handler σ, Middleware.RateLimitMiddleware net now next' w r st
        = ((next' w r st.2).1,
           (Function.update st.1 ip
              (some { count := (currentBucket st.1 ip now).count + 1,
                      lastReset := (currentBucket st.1 ip now).lastReset }),
            (next' w r st.2).2))) := by
  have hb : countsBounded st.1 := by
    rw [hst]
    exact serve_countsBounded net next reqs _ (fun _ _ h => by cases h)
  have hcb := currentBucket_bounded hb ip now
  have hrej : (currentBucket st.1 ip now).count = 100 →
      ∀ next' : Handler σ, Middleware.RateLimitMiddleware net now next' w r st
        = (w ++ [.Error "Rate limit exceeded" 429], st) :=
    fun h next' => RateLimit_reject net now next' w r st ip hip (by omega)
  have hfwd : (currentBucket st.1 ip now).count ≠ 100 →
      ∀ next' : Handler σ, Middleware.RateLimitMiddleware net now next' w r st
        = ((next' w r st.2).1,
           (Function.update st.1 ip
              (some { count := (currentBucket st.1 ip now).count + 1,
                      lastReset := (currentBucket st.1 ip now).lastReset }),
            (next' w r st.2).2)) :=
    fun h next' => RateLimit_forward net now next' w r st ip hip (by omega)
  refine ⟨hb, hcb, ⟨fun h next' => by rw [hrej h next'], fun h => ?_⟩, hrej, hfwd⟩
  by_contra hne
  have h1 := h (fun _ _ s => ([], s))
  rw [hfwd hne] at h1
  simp at h1

theorem C9_counts_stay_between_0_and_100_witness :
    GetIPAddressBytes exampleNet peerRequest = some exampleIP ∧
    (∀ ip' c, (serve exampleNet markNext (List.replicate 150 (0, [], peerRequest))
        (fun _ => none, ())).1 ip' = some c → 0 ≤ c.count ∧ c.count ≤ 100) :=
  ⟨rfl,
   (C9_counts_stay_between_0_and_100 exampleNet markNext
      (List.replicate 150 (0, [], peerRequest)) () 7 [] peerRequest exampleIP _ rfl rfl).1⟩

/-! ## C10: refresh -/

/-- A successful `ValidateSession` returns the row that `GetByCookieHash`
returns: the first row with the token, which has an address. -/
theorem ValidateSession_ok_find {db : DB} {now : Time} {cookieHash : String} {session : Session}
    (h : (SessionService.ValidateSession db now cookieHash).1 = .ok session) :
    db.sessions.find? (fun r => r.CookieHash == cookieHash) = some session ∧
      session.IPAddress ≠ none := by
  unfold SessionService.ValidateSession at h
  cases hg : SessionRepository.GetByCookieHash db cookieHash with
  | error e => simp [hg] at h
  | ok row =>
    simp only [hg] at h
    have hrow : row = session := by
      cases he : row.ExpiresAt with
      | none => simpa [he] using h
      | some e =>
        simp only [he] at h
        by_cases hlt : now > e
        · simp [hlt] at h
        · simpa [hlt] using h
    subst hrow
    exact GetByCookieHash_ok hg

/-- C10 fails as stated.  The store `dbRefreshedAt2000` is what a refresh that
read the clock at 2000 leaves, so the session expires at 2000 + 24h.  The token
validates at clock reading 2000 and at clock reading 1500.  A refresh that
reads 2000 again succeeds and leaves the store as it was: `ExpiresAt` is equal
to its value before the call.  A refresh that reads 1500 (a clock that is
behind the one of the earlier refresh) succeeds and stores 1500 + 24h, which
is earlier than the value before the call. -/
theorem C10_counterexample_expiry_not_strictly_later :
    SessionService.RefreshSession NewSessionService dbAfterFirstLogin 2000 2000 zeroToken
      = (none, dbRefreshedAt2000) ∧
    (SessionService.ValidateSession dbRefreshedAt2000 2000 zeroToken).1
      = .ok { ID := "s1", UserID := "u1", CookieHash := zeroToken, CreatedAt := 1001,
              ExpiresAt := some (2000 + 24 * Hour), IPAddress := some [10, 0, 0, 1],
              UserAgent := "curl" } ∧
    SessionService.RefreshSession NewSessionService dbRefreshedAt2000 2000 2000 zeroToken
      = (none, dbRefreshedAt2000) ∧
    (SessionService.ValidateSession dbRefreshedAt2000 1500 zeroToken).1
      = .ok { ID := "s1", UserID := "u1", CookieHash := zeroToken, CreatedAt := 1001,
              ExpiresAt := some (2000 + 24 * Hour), IPAddress := some [10, 0, 0, 1],
              UserAgent := "curl" } ∧
    SessionRepository.GetByCookieHash
        (SessionService.RefreshSession NewSessionService dbRefreshedAt2000 1500 1500
          zeroToken).2 zeroToken
      = .ok { ID := "s1", UserID := "u1", CookieHash := zeroToken, CreatedAt := 1001,
              ExpiresAt := some (1500 + 24 * Hour), IPAddress := some [10, 0, 0, 1],
              UserAgent := "curl" } ∧
    ¬ ((2000 + 24 * Hour : Time) < 1500 + 24 * Hour) :=
  ⟨rfl, rfl, rfl, rfl, rfl, by decide⟩

/-- C10, amended: when `ValidateSession` succeeds on a token and returns
`session`, `RefreshSession` succeeds; it changes nothing but the `ExpiresAt`
of the rows with that token, which becomes the clock reading of the call plus
`sessionDuration` (24h for `NewSessionService`); the store then returns for the
token the same session with that expiry.  When the expiry before the call is
set, to `e`, the new expiry is strictly later exactly when `e` is earlier than
the clock reading plus `sessionDuration`. -/
theorem C10_refresh_sets_expiry_from_now
    (ss : SessionService) (db : DB) (now now2 : Time) (cookieHash : String) (session : Session)
    (hv : (SessionService.ValidateSession db now cookieHash).1 = .ok session) :
    SessionService.RefreshSession ss db now now2 cookieHash
      = (none, { db with sessions := db.sessions.map (fun r =>
          if r.CookieHash = cookieHash
          then { r with ExpiresAt := some (now2 + ss.sessionDuration) } else r) }) ∧
    SessionRepository.GetByCookieHash
        (SessionService.RefreshSession ss db now now2 cookieHash).2 cookieHash
      = .ok { session with ExpiresAt := some (now2 + ss.sessionDuration) } ∧
    session.CookieHash = cookieHash ∧
    (∀ e, session.ExpiresAt = some e →
      (e < now2 + ss.sessionDuration ↔
        ∃ s' e', SessionRepository.GetByCookieHash
            (SessionService.RefreshSession ss db now now2 cookieHash).2 cookieHash = .ok s' ∧
          s'.ExpiresAt = some e' ∧ e < e')) ∧
    NewSessionService.sessionDuration = 86400 * Second := by
  obtain ⟨hfind, hsip⟩ := ValidateSession_ok_find hv
  have htok : session.CookieHash = cookieHash := by simpa using List.find?_some hfind
  have href : SessionService.RefreshSession ss db now now2 cookieHash
      = (none, { db with sessions := db.sessions.map (fun r =>
          if r.CookieHash = cookieHash
          then { r with ExpiresAt := some (now2 + ss.sessionDuration) } else r) }) := by
    unfold SessionService.RefreshSession
    rw [ValidateSession_ok_db hv]
    rfl
  have hcomp : ((fun r : Session => r.CookieHash == cookieHash) ∘ (fun r : Session =>
        if r.CookieHash = cookieHash
        then { r with ExpiresAt := some (now2 + ss.sessionDuration) } else r))
      = (fun r : Session => r.CookieHash == cookieHash) := by
    funext r
    by_cases hr : r.CookieHash = cookieHash <;> simp [Function.comp, hr]
  have hget : SessionRepository.GetByCookieHash
        (SessionService.RefreshSession ss db now now2 cookieHash).2 cookieHash
      = .ok { session with ExpiresAt := some (now2 + ss.sessionDuration) } := by
    rw [href]
    apply GetByCookieHash_of_find
    · simp only [List.find?_map, hcomp, hfind, Option.map_some', htok, if_true]
    · exact hsip
  refine ⟨href, hget, htok, ?_, by decide⟩
  intro e _
  rw [hget]
  constructor
  · intro hlt
    exact ⟨_, _, rfl, rfl, hlt⟩
  · rintro ⟨s', e', hs', he', hlt⟩
    simp only [Except.ok.injEq] at hs'
    subst hs'
    simp only [Option.some.injEq] at he'
    subst he'
    exact hlt

theorem C10_refresh_sets_expiry_from_now_witness :
    (SessionService.ValidateSession dbAfterFirstLogin 2000 zeroToken).1
      = .ok { ID := "s1", UserID := "u1", CookieHash := zeroToken, CreatedAt := 1001,
              ExpiresAt := none, IPAddress := some [10, 0, 0, 1], UserAgent := "curl" } ∧
    SessionRepository.GetByCookieHash
        (SessionService.RefreshSession NewSessionService dbAfterFirstLogin 2000 2001
          zeroToken).2 zeroToken
      = .ok { ID := "s1", UserID := "u1", CookieHash := zeroToken, CreatedAt := 1001,
              ExpiresAt := some (2001 + NewSessionService.sessionDuration),
              IPAddress := some [10, 0, 0, 1], UserAgent := "curl" } :=
  ⟨rfl,
   (C10_refresh_sets_expiry_from_now NewSessionService dbAfterFirstLogin 2000 2001 zeroToken
      { ID := "s1", UserID := "u1", CookieHash := zeroToken, CreatedAt := 1001,
        ExpiresAt := none, IPAddress := some [10, 0, 0, 1], UserAgent := "curl" } rfl).2.1⟩

/-! ## C11: refresh of a token that does not validate -/

/-- C11 fails as stated: on a store holding the expired session `staleSession`
(a row with an address, so the repository can read it), `RefreshSession`
returns `ErrSessionExpired`, the error of `ValidateSession`, but the store
after the call has lost the row. -/
theorem C11_counterexample_expired_refresh_deletes_row :
    staleSession.CookieHash = "tok" ∧ staleSession.ExpiresAt = some 5 ∧
    staleSession.IPAddress = some [10, 0, 0, 1] ∧
    SessionService.ValidateSession { sessions := [staleSession] } 10 "tok"
      = (.error .ErrSessionExpired, { sessions := [] }) ∧
    SessionService.RefreshSession NewSessionService { sessions := [staleSession] } 10 10 "tok"
      = (some .ErrSessionExpired, { sessions := [] }) ∧
    ({ sessions := [] } : DB) ≠ { sessions := [staleSession] } :=
  ⟨rfl, rfl, rfl, rfl, rfl, by decide⟩

/-- C11, amended: when `ValidateSession` fails on a token, `RefreshSession`
returns the same error, which is `ErrInvalidSession` or `ErrSessionExpired`,
and leaves the store as `ValidateSession` leaves it.  With `ErrInvalidSession`,
the error when no row carries the token, the store is the one before the
call.  With `ErrSessionExpired`, the error when the repository returns a row
for the token, that row's `ExpiresAt` is before the clock reading and the
store is the one before the call without the rows that carry the token. -/
theorem C11_refresh_propagates_validation_error
    (ss : SessionService) (db : DB) (now now2 : Time) (cookieHash : String) (err : Error)
    (hv : (SessionService.ValidateSession db now cookieHash).1 = .error err) :
    SessionService.RefreshSession ss db now now2 cookieHash
      = (some err, (SessionService.ValidateSession db now cookieHash).2) ∧
    (err = .ErrInvalidSession ∨ err = .ErrSessionExpired) ∧
    (err = .ErrInvalidSession →
      (SessionService.RefreshSession ss db now now2 cookieHash).2 = db) ∧
    (err = .ErrSessionExpired →
      (SessionService.RefreshSession ss db now now2 cookieHash).2
        = { db with sessions := db.sessions.filter (fun r => r.CookieHash != cookieHash) }) ∧
    ((∀ r ∈ db.sessions, r.CookieHash ≠ cookieHash) → err = .ErrInvalidSession) ∧
    (∀ s, SessionRepository.GetByCookieHash db cookieHash = .ok s →
      err = .ErrSessionExpired ∧ ∃ e, s.ExpiresAt = some e ∧ e < now) := by
  have href : SessionService.RefreshSession ss db now now2 cookieHash
      = (some err, (SessionService.ValidateSession db now cookieHash).2) := by
    unfold SessionService.RefreshSession
    cases hres : SessionService.ValidateSession db now cookieHash with
    | mk res db1 =>
      rw [hres] at hv
      simp only [] at hv
      subst hv
      rfl
  have hcases : (∃ e, SessionRepository.GetByCookieHash db cookieHash = .error e ∧
        err = .ErrInvalidSession ∧ (SessionService.ValidateSession db now cookieHash).2 = db) ∨
      (∃ s e, SessionRepository.GetByCookieHash db cookieHash = .ok s ∧
        s.ExpiresAt = some e ∧ e < now ∧ err = .ErrSessionExpired ∧
        (SessionService.ValidateSession db now cookieHash).2
          = { db with sessions := db.sessions.filter (fun r => r.CookieHash != cookieHash) }) := by
    unfold SessionService.ValidateSession at hv ⊢
    cases hg : SessionRepository.GetByCookieHash db cookieHash with
    | error e =>
      left
      simp only [hg, Except.error.injEq] at hv ⊢
      exact ⟨e, rfl, hv.symm, trivial⟩
    | ok row =>
      right
      simp only [hg] at hv ⊢
      cases he : row.ExpiresAt with
      | none => simp [he] at hv
      | some e =>
        simp only [he] at hv ⊢
        by_cases hlt : now > e
        · simp only [hlt, if_true, Except.error.injEq] at hv ⊢
          exact ⟨row, e, rfl, he, hlt, hv.symm, rfl⟩
        · simp [hlt] at hv
  refine ⟨href, ?_, ?_, ?_, ?_, ?_⟩
  · rcases hcases with ⟨_, _, h, _⟩ | ⟨_, _, _, _, _, h, _⟩
    · exact Or.inl h
    · exact Or.inr h
  · intro herr
    rw [href]
    rcases hcases with ⟨_, _, _, h⟩ | ⟨_, _, _, _, _, h, _⟩
    · exact h
    · rw [herr] at h; cases h
  · intro herr
    rw [href]
    rcases hcases with ⟨_, _, h, _⟩ | ⟨_, _, _, _, _, _, h⟩
    · rw [herr] at h; cases h
    · exact h
  · intro hnone
    have hfind : db.sessions.find? (fun r => r.CookieHash == cookieHash) = none := by
      rw [List.find?_eq_none]
      intro r hr
      simpa using hnone r hr
    rcases hcases with ⟨_, _, h, _⟩ | ⟨s, _, hg, _⟩
    · exact h
    · rw [GetByCookieHash_of_find_none hfind] at hg; cases hg
  · intro s hs
    rcases hcases with ⟨_, hg, _⟩ | ⟨s', e, hg, he, hlt, h, _⟩
    · rw [hs] at hg; cases hg
    · rw [hs] at hg
      simp only [Except.ok.injEq] at hg
      subst hg
      exact ⟨h, e, he, hlt⟩

theorem C11_refresh_propagates_validation_error_witness :
    (SessionService.ValidateSession { sessions := [staleSession] } 10 "tok").1
      = .error .ErrSessionExpired ∧
    SessionService.RefreshSession NewSessionService { sessions := [staleSession] } 10 11 "tok"
      = (some .ErrSessionExpired,
         (SessionService.ValidateSession { sessions := [staleSession] } 10 "tok").2) :=
  ⟨rfl,
   (C11_refresh_propagates_validation_error NewSessionService { sessions := [staleSession] }
      10 11 "tok" .ErrSessionExpired rfl).1⟩

/-! ## C12: Chain -/

/-- The loop run from counter `n` applies the first `n` middleware, the last of
them first. -/
theorem Chain_loop_eq_foldr {H : Type} (mw : List (H → H)) :
    ∀ (n : Nat) (h : H), n ≤ mw.length →
      Middleware.Chain.loop mw n h = (mw.take n).foldr (fun m acc => m acc) h := by
  intro n
  induction n with
  | zero => intro h _; rfl
  | succ n ih =>
    intro h hn
    have hlt : n < mw.length := hn
    have htake : mw.take (n + 1) = mw.take n ++ [mw[n]] := by
      rw [List.take_succ, List.getElem?_eq_getElem hlt]
      rfl
    rw [Middleware.Chain.loop, List.getElem?_eq_getElem hlt]
    simp only []
    rw [ih _ (Nat.le_of_lt hlt), htake, List.foldr_append]
    rfl

theorem Chain_eq_foldr {H : Type} (h : H) (mw : List (H → H)) :
    Middleware.Chain h mw = mw.foldr (fun m acc => m acc) h := by
  unfold Middleware.Chain
  rw [Chain_loop_eq_foldr mw mw.length h (Nat.le_refl _), List.take_length]

/-- C12: `Chain h [m1, ..., mn]` is `m1 (m2 (... (mn h)))`: with no middleware
it is `h`, and the first listed middleware wraps the chain of the others.  So
for middleware that write on the way in and on the way out, the writes on the
way in come in the listed order before the handler runs and the writes on the
way out come in the reverse order after it. -/
theorem C12_chain_first_listed_is_outermost {H : Type} (h : H) (mw : List (H → H)) :
    Middleware.Chain h mw = mw.foldr (fun m acc => m acc) h ∧
    Middleware.Chain h [] = h ∧
    (∀ (m : H → H) (rest : List (H → H)),
      Middleware.Chain h (m :: rest) = m (Middleware.Chain h rest)) ∧
    (∀ a b c : H → H, Middleware.Chain h [a, b, c] = a (b (c h))) ∧
    (∀ (σ : Type) (names : List String) (g : Handler σ) (w : ResponseWriter) (r : Request)
        (s : σ),
      Middleware.Chain g (names.map traced) w r s
        = ((g (w ++ names.map (fun n => Effect.Write (n ++ " request"))) r s).1
            ++ names.reverse.map (fun n => Effect.Write (n ++ " response")),
           (g (w ++ names.map (fun n => Effect.Write (n ++ " request"))) r s).2)) := by
  refine ⟨Chain_eq_foldr h mw, rfl, ?_, ?_, ?_⟩
  · intro m rest
    rw [Chain_eq_foldr, Chain_eq_foldr, List.foldr_cons]
  · intro a b c
    rfl
  · intro σ names g
    induction names with
    | nil => intro w r s; simp [Chain_eq_foldr]
    | cons n rest ih =>
      intro w r s
      have hcons : Middleware.Chain g ((n :: rest).map traced)
          = traced n (Middleware.Chain g (rest.map traced)) := by
        rw [Chain_eq_foldr, Chain_eq_foldr, List.map_cons, List.foldr_cons]
      have happly : ∀ next : Handler σ, traced n next w r s
          = ((next (w ++ [Effect.Write (n ++ " request")]) r s).1
              ++ [Effect.Write (n ++ " response")],
             (next (w ++ [Effect.Write (n ++ " request")]) r s).2) := fun _ => rfl
      rw [hcons, happly, ih]
      simp [List.append_assoc]

/-! ## C13: the address of the client -/

/-- C13: when the `X-Forwarded-For` header is not empty and its first
comma-separated entry, trimmed, parses, `GetIPAddressBytes` returns that
address; otherwise it returns what the host part of `RemoteAddr` parses to
(nil when it does not parse), and nil when `RemoteAddr` does not split.  The
rate limiter answers 400 with its state untouched, whatever the next handler
is, exactly when `GetIPAddressBytes` returns nil. -/
theorem C13_client_address_resolution {σ : Type} (net : NetLib) (r : Request)
    (now : Time) (w : ResponseWriter) (st : Clients × σ) :
    (r.HeaderGet "X-Forwarded-For" ≠ "" → ∀ ip,
      net.ParseIP (TrimSpace (firstEntry (r.HeaderGet "X-Forwarded-For"))) = some ip →
      GetIPAddressBytes net r = some ip) ∧
    ((r.HeaderGet "X-Forwarded-For" = "" ∨
        net.ParseIP (TrimSpace (firstEntry (r.HeaderGet "X-Forwarded-For"))) = none) →
      ∀ host port, net.SplitHostPort r.RemoteAddr = .ok (host, port) →
      GetIPAddressBytes net r = net.ParseIP host) ∧
    ((r.HeaderGet "X-Forwarded-For" = "" ∨
        net.ParseIP (TrimSpace (firstEntry (r.HeaderGet "X-Forwarded-For"))) = none) →
      ∀ e, net.SplitHostPort r.RemoteAddr = .error e →
      GetIPAddressBytes net r = none) ∧
    (GetIPAddressBytes net r = none ↔
      ∀ next : Handler σ, Middleware.RateLimitMiddleware net now next w r st
        = (w ++ [.Error "Could not determine client IP" 400], st)) := by
  refine ⟨?_, ?_, ?_, ?_⟩
  · intro hx ip hp
    simp [GetIPAddressBytes, hx, hp]
  · intro h host port hs
    rcases h with h | h
    · simp [GetIPAddressBytes, h, hs]
    · by_cases hx : r.HeaderGet "X-Forwarded-For" = ""
      · simp [GetIPAddressBytes, hx, hs]
      · simp [GetIPAddressBytes, hx, h, hs]
  · intro h e hs
    rcases h with h | h
    · simp [GetIPAddressBytes, h, hs]
    · by_cases hx : r.HeaderGet "X-Forwarded-For" = ""
      · simp [GetIPAddressBytes, hx, hs]
      · simp [GetIPAddressBytes, hx, h, hs]
  · constructor
    · intro hnone next
      exact RateLimit_no_ip net now next w r st hnone
    · intro h
      cases hip : GetIPAddressBytes net r with
      | none => rfl
      | some ip =>
        exfalso
        by_cases hc : 100 ≤ (currentBucket st.1 ip now).count
        · have h1 := h (fun _ _ s => ([], s))
          rw [RateLimit_reject net now _ w r st ip hip hc] at h1
          simp at h1
        · have h1 := h (fun _ _ s => ([], s))
          rw [RateLimit_forward net now _ w r st ip hip (by omega)] at h1
          simp at h1

theorem C13_client_address_resolution_witness :
    GetIPAddressBytes exampleNet
        { Header := [("X-Forwarded-For", " 10.0.0.1 , 192.0.2.7")], RemoteAddr := "junk" }
      = some exampleIP ∧
    GetIPAddressBytes exampleNet peerRequest = exampleNet.ParseIP "10.0.0.1" ∧
    Middleware.RateLimitMiddleware exampleNet 5 markNext [] { RemoteAddr := "junk" }
        ((fun _ => none : Clients), ())
      = ([.Error "Could not determine client IP" 400], ((fun _ => none : Clients), ())) :=
  ⟨(C13_client_address_resolution exampleNet
      { Header := [("X-Forwarded-For", " 10.0.0.1 , 192.0.2.7")], RemoteAddr := "junk" }
      5 [] ((fun _ => none : Clients), ())).1 (by decide) exampleIP rfl,
   (C13_client_address_resolution exampleNet peerRequest
      5 [] ((fun _ => none : Clients), ())).2.1 (Or.inl rfl) "10.0.0.1" "5000" rfl,
   (C13_client_address_resolution exampleNet { RemoteAddr := "junk" }
      5 [] ((fun _ => none : Clients), ())).2.2.2.mp
      ((C13_client_address_resolution exampleNet { RemoteAddr := "junk" }
        5 [] ((fun _ => none : Clients), ())).2.2.1 (Or.inl rfl)
        (.other "missing port in address") rfl) markNext⟩

/-! ## C14 - C16: registration -/

/-- The validation gate of `PostRegister` rejects with 422 and does nothing else. -/
theorem PostRegister_rejected (lib : StdLib) (net : NetLib) (ss : SessionService)
    (env : RegisterEnv) (w : ResponseWriter) (r : Request) (db : DB)
    (h : r.FormValue "repeat" ≠ r.FormValue "password" ∨
      IsValidEmail lib (CleanString lib (r.FormValue "email")) = false ∨
      (r.FormValue "password").utf8ByteSize < 8 ∨
      (r.FormValue "password").utf8ByteSize > 72) :
    UserHandler.PostRegister lib net ss env w r db = (w ++ [.WriteHeader 422], db) := by
  unfold UserHandler.PostRegister
  simp only []
  rw [if_pos h]
  rfl

/-- `Create` refuses an email that a stored user with a non-empty id has. -/
theorem Create_existing_email (lib : StdLib) (db : DB) (dbNow : Time) (newID : String)
    (user : User)
    (hex : ∃ u ∈ db.users, u.Email = user.Email)
    (hid : ∀ u ∈ db.users, u.ID ≠ "") :
    UserService.Create lib db dbNow newID user = (.error .ErrEmailAlreadyExist, db) := by
  obtain ⟨row, hfind, hrow⟩ := find?_of_exists (fun u : User => u.Email == user.Email)
    (fun u => u.ID ≠ "") db.users
    (by obtain ⟨u, hu, he⟩ := hex; exact ⟨u, hu, by simp [he]⟩)
    (fun u hu _ => hid u hu)
  simp [UserService.Create, UserRepo.GetUserByEmail, hfind, hrow]

/-- C14 fails as stated: the email of the form, once cleaned, is the email of
the stored user, but the password has five bytes, and `PostRegister` answers
422, not a conflict status. -/
theorem C14_counterexample_short_password_is_422 :
    CleanString exampleLib ((registerRequest " User@Example.com" "short" "short").FormValue
        "email") = storedUser.Email ∧
    storedUser ∈ ({ users := [storedUser] } : DB).users ∧
    UserHandler.PostRegister exampleLib exampleNet NewSessionService exampleEnv []
        (registerRequest " User@Example.com" "short" "short") { users := [storedUser] }
      = ([.WriteHeader 422], { users := [storedUser] }) ∧
    (Effect.WriteHeader 422 ≠ Effect.Error "email already exists" 409) :=
  ⟨rfl, by simp, rfl, by decide⟩

/-- C14, amended: when the cleaned email of the form is the email of a stored
user (stored ids being non-empty), `UserService.Create` for that email fails
with `ErrEmailAlreadyExist` and leaves the database as it is; `PostRegister`
answers 409 with the text of that error when the form passes its validation
(repetition equal to the password, address accepted, password of 8 to 72
bytes) and 422 when it does not; in both cases the database is unchanged and
the response sets no cookie. -/
theorem C14_existing_email_is_refused (lib : StdLib) (net : NetLib) (ss : SessionService)
    (env : RegisterEnv) (w : ResponseWriter) (r : Request) (db : DB)
    (hex : ∃ u ∈ db.users, u.Email = CleanString lib (r.FormValue "email"))
    (hid : ∀ u ∈ db.users, u.ID ≠ "") :
    (∀ (dbNow : Time) (newID : String) (user : User),
      user.Email = CleanString lib (r.FormValue "email") →
      UserService.Create lib db dbNow newID user = (.error .ErrEmailAlreadyExist, db)) ∧
    (¬ (r.FormValue "repeat" ≠ r.FormValue "password" ∨
        IsValidEmail lib (CleanString lib (r.FormValue "email")) = false ∨
        (r.FormValue "password").utf8ByteSize < 8 ∨
        (r.FormValue "password").utf8ByteSize > 72) →
      UserHandler.PostRegister lib net ss env w r db
        = (w ++ [.Error "email already exists" 409], db)) ∧
    ((r.FormValue "repeat" ≠ r.FormValue "password" ∨
        IsValidEmail lib (CleanString lib (r.FormValue "email")) = false ∨
        (r.FormValue "password").utf8ByteSize < 8 ∨
        (r.FormValue "password").utf8ByteSize > 72) →
      UserHandler.PostRegister lib net ss env w r db = (w ++ [.WriteHeader 422], db)) := by
  have hcreate : ∀ (dbNow : Time) (newID : String) (user : User),
      user.Email = CleanString lib (r.FormValue "email") →
      UserService.Create lib db dbNow newID user = (.error .ErrEmailAlreadyExist, db) := by
    intro dbNow newID user hu
    exact Create_existing_email lib db dbNow newID user (by rw [hu]; exact hex) hid
  refine ⟨hcreate, ?_, PostRegister_rejected lib net ss env w r db⟩
  intro hok
  unfold UserHandler.PostRegister
  simp only []
  rw [if_neg hok, hcreate _ _ _ rfl]
  rfl

theorem C14_existing_email_is_refused_witness :
    (∃ u ∈ ({ users := [storedUser] } : DB).users,
      u.Email = CleanString exampleLib
        ((registerRequest " User@Example.com" "password10" "password10").FormValue "email")) ∧
    (∀ u ∈ ({ users := [storedUser] } : DB).users, u.ID ≠ "") ∧
    UserHandler.PostRegister exampleLib exampleNet NewSessionService exampleEnv []
        (registerRequest " User@Example.com" "password10" "password10")
        { users := [storedUser] }
      = ([.Error "email already exists" 409], { users := [storedUser] }) :=
  ⟨⟨storedUser, by simp, rfl⟩, by simp [storedUser],
   (C14_existing_email_is_refused exampleLib exampleNet NewSessionService exampleEnv []
      (registerRequest " User@Example.com" "password10" "password10")
      { users := [storedUser] } ⟨storedUser, by simp, rfl⟩ (by simp [storedUser])).2.1
      (by decide)⟩

/-- C15, as the code behaves: for a user with a valid password whose email is
not taken, when `HashPassword` returns an error `Create` discards it, succeeds,
and stores the user with the empty string as password hash, marked valid. -/
theorem C15_failed_hashing_stores_empty_hash (lib : StdLib) (db : DB) (dbNow : Time)
    (newID : String) (user : User) (err : Error)
    (hvalid : user.PasswordHash.Valid = true)
    (hnew : ∀ u ∈ db.users, u.Email ≠ user.Email)
    (hfail : HashPassword lib user.PasswordHash.String = .error err) :
    UserService.Create lib db dbNow newID user
      = (.ok { ID := newID, Email := user.Email,
               PasswordHash := { String := "", Valid := true },
               GoogleID := user.GoogleID, CreatedAt := dbNow, UpdatedAt := dbNow },
         { db with users := db.users ++
             [{ ID := newID, Email := user.Email,
                PasswordHash := { String := "", Valid := true },
                GoogleID := user.GoogleID, CreatedAt := dbNow, UpdatedAt := dbNow }] }) := by
  have hfind : db.users.find? (fun u => u.Email == user.Email) = none := by
    rw [List.find?_eq_none]
    intro u hu
    simpa using hnew u hu
  simp [UserService.Create, UserRepo.GetUserByEmail, hfind, hvalid, hfail, UserRepo.CreateUser]

theorem C15_failed_hashing_stores_empty_hash_witness :
    HashPassword failingLib "password10"
      = .error (.other "erreur lors du hachage du mot de passe : unexpected EOF") ∧
    UserService.Create failingLib {} 100 "8"
        { Email := "new@example.com", PasswordHash := { String := "password10", Valid := true } }
      = (.ok { ID := "8", Email := "new@example.com",
               PasswordHash := { String := "", Valid := true },
               CreatedAt := 100, UpdatedAt := 100 },
         { users := [{ ID := "8", Email := "new@example.com",
                       PasswordHash := { String := "", Valid := true },
                       CreatedAt := 100, UpdatedAt := 100 }] }) ∧
    (UserHandler.PostRegister failingLib exampleNet NewSessionService exampleEnv []
        (registerRequest "new@example.com" "password10" "password10") {}).1
      = [.SetCookie { Name := "session", Value := zeroToken, Path := "/", HttpOnly := true,
                      Secure := true, SameSite := .SameSiteStrictMode, MaxAge := 86400 },
         .Redirect "/app" 303] :=
  ⟨rfl,
   C15_failed_hashing_stores_empty_hash failingLib {} 100 "8"
     { Email := "new@example.com", PasswordHash := { String := "password10", Valid := true } }
     (.other "erreur lors du hachage du mot de passe : unexpected EOF") rfl (by simp) rfl,
   rfl⟩

/-- C16: `IsValidPasswordLength p` is true exactly when the UTF-8 encoding of
`p` has between 8 and 72 bytes; and `PostRegister` answers 422 for every form
whose password has fewer than 8 or more than 72 bytes, with the database
unchanged (no user, no session), whatever the hashing of the library does. -/
theorem C16_password_length_8_to_72_bytes (lib : StdLib) (net : NetLib) (ss : SessionService)
    (env : RegisterEnv) (w : ResponseWriter) (r : Request) (db : DB) :
    (∀ p : String, IsValidPasswordLength p = true ↔ 8 ≤ p.utf8ByteSize ∧ p.utf8ByteSize ≤ 72) ∧
    (IsValidPasswordLength (r.FormValue "password") = false →
      UserHandler.PostRegister lib net ss env w r db = (w ++ [.WriteHeader 422], db)) ∧
    ((r.FormValue "password").utf8ByteSize < 8 ∨ 72 < (r.FormValue "password").utf8ByteSize →
      UserHandler.PostRegister lib net ss env w r db = (w ++ [.WriteHeader 422], db)) := by
  have hiff : ∀ p : String,
      IsValidPasswordLength p = true ↔ 8 ≤ p.utf8ByteSize ∧ p.utf8ByteSize ≤ 72 := by
    intro p
    simp [IsValidPasswordLength]
  refine ⟨hiff, ?_, ?_⟩
  · intro hfalse
    have hnot : ¬ (8 ≤ (r.FormValue "password").utf8ByteSize ∧
        (r.FormValue "password").utf8ByteSize ≤ 72) := by
      rw [← hiff]; simp [hfalse]
    apply PostRegister_rejected
    right; right
    omega
  · intro h
    apply PostRegister_rejected
    right; right
    rcases h with h | h
    · exact Or.inl h
    · exact Or.inr h

theorem C16_password_length_8_to_72_bytes_witness :
    IsValidPasswordLength "éééé" = true ∧ "éééé".length = 4 ∧
    IsValidPasswordLength "abcdefg" = false ∧
    IsValidPasswordLength (String.mk (List.replicate 37 'é')) = false ∧
    UserHandler.PostRegister exampleLib exampleNet NewSessionService exampleEnv []
        (registerRequest "new@example.com" "abcdefg" "abcdefg") {}
      = ([.WriteHeader 422], {}) :=
  ⟨by decide, by decide, by decide, by decide,
   (C16_password_length_8_to_72_bytes exampleLib exampleNet NewSessionService exampleEnv []
      (registerRequest "new@example.com" "abcdefg" "abcdefg") {}).2.1 (by decide)⟩

end Starter
